import Mathlib

/-!
Verification of the catalog synchronization and change-notification engine of the
data-scout monorepo (IKEA circularity scraper): the diff/reconciliation algorithm
(`IkeaSyncService.syncProducts`), the notification fan-out (`NotificationService`),
the subscription selection (`BotUserService`), the per-store scrape loop
(`IkeaCircularityScraper.scrape`) and the paginated fetcher
(`IkeaCircularityScraper.fetchAllProducts` over `BrowserHttpClient`).

The document store (Firestore adapter) is modelled as an association list keyed by
document id; timestamps (`new Date()`) are modelled as a natural-number clock value
passed in; JavaScript `number` money values are modelled as rationals.
-/

namespace DataScout

/-- Association-list model of one Firestore collection: documents keyed by id,
in insertion order. -/
abbrev DocStore (α : Type) := List (String × α)

namespace DocStore

/-- Model of `FirestoreStorageAdapter.save(record, id)`: overwrite the document at
the key if present (keeping its position), otherwise append. This is also the
semantics of JavaScript `Map.prototype.set` used for `existingProductsMap`. -/
def save (s : DocStore α) (v : α) (k : String) : DocStore α :=
  if s.any (fun kv => decide (kv.1 = k)) then
    s.map (fun kv => if kv.1 = k then (k, v) else kv)
  else s ++ [(k, v)]

/-- Model of reading the document at a key (`Map.prototype.get`). -/
def lookup (s : DocStore α) (k : String) : Option α :=
  (List.find? (fun kv => decide (kv.1 = k)) s).map (·.2)

/-- Model of `FirestoreStorageAdapter.delete(id)`. -/
def erase (s : DocStore α) (k : String) : DocStore α :=
  s.filter (fun kv => decide (kv.1 ≠ k))

/-- The documents of the collection, in order (`getAll()`). -/
def values (s : DocStore α) : List α := s.map (·.2)

/-- The keys of the collection, in order (`Map.prototype.keys`). -/
def keys (s : DocStore α) : List String := s.map (·.1)

theorem lookup_nil (k : String) : lookup ([] : DocStore α) k = none := rfl

theorem lookup_cons (kv : String × α) (s : DocStore α) (k : String) :
    lookup (kv :: s) k = if kv.1 = k then some kv.2 else lookup s k := by
  by_cases h : kv.1 = k <;> simp [lookup, List.find?, h]

theorem lookup_append (s t : DocStore α) (k : String) :
    lookup (s ++ t) k = ((lookup s k).or (lookup t k)) := by
  induction s with
  | nil => simp [lookup]
  | cons kv s ih =>
    rw [List.cons_append, lookup_cons, lookup_cons]
    by_cases h : kv.1 = k <;> simp [h, ih]

theorem any_key_eq_isSome (s : DocStore α) (k : String) :
    s.any (fun kv => decide (kv.1 = k)) = (lookup s k).isSome := by
  induction s with
  | nil => simp [lookup]
  | cons kv s ih =>
    rw [List.any_cons, lookup_cons]
    by_cases h : kv.1 = k <;> simp [h, ih]

theorem lookup_mapfix (s : DocStore α) (v : α) (k k' : String) :
    lookup (s.map (fun kv => if kv.1 = k then (k, v) else kv)) k'
      = if k' = k then (lookup s k).map (fun _ => v) else lookup s k' := by
  induction s with
  | nil => by_cases h : k' = k <;> simp [lookup, h]
  | cons kv s ih =>
    rw [List.map_cons]
    by_cases hk : kv.1 = k
    · rw [if_pos hk, lookup_cons, lookup_cons, lookup_cons]
      by_cases h : k' = k
      · simp [h, hk]
      · have hne : ¬ k = k' := fun hh => h hh.symm
        simp [h, hk, hne, ih]
    · rw [if_neg hk, lookup_cons, lookup_cons, lookup_cons]
      by_cases h : k' = k
      · subst h
        simp [hk, ih]
      · by_cases h2 : kv.1 = k' <;> simp [h, h2, ih]

theorem save_of_absent (s : DocStore α) (v : α) (k : String)
    (h : lookup s k = none) : save s v k = s ++ [(k, v)] := by
  have hany : s.any (fun kv => decide (kv.1 = k)) = false := by
    rw [any_key_eq_isSome, h]; rfl
  simp [save, hany]

theorem save_of_present (s : DocStore α) (v : α) (k : String)
    (h : (lookup s k).isSome) :
    save s v k = s.map (fun kv => if kv.1 = k then (k, v) else kv) := by
  have hany : s.any (fun kv => decide (kv.1 = k)) = true := by
    rw [any_key_eq_isSome, h]
  simp [save, hany]

theorem lookup_save (s : DocStore α) (v : α) (k k' : String) :
    lookup (save s v k) k' = if k' = k then some v else lookup s k' := by
  cases hl : lookup s k with
  | none =>
    rw [save_of_absent s v k hl, lookup_append]
    by_cases h : k' = k
    · simp [h, hl, lookup_cons]
    · have : ¬ k = k' := fun hh => h hh.symm
      simp [h, this, lookup_cons, lookup_nil]
  | some w =>
    rw [save_of_present s v k (by rw [hl]; rfl), lookup_mapfix]
    by_cases h : k' = k <;> simp [h, hl]

theorem lookup_erase (s : DocStore α) (k k' : String) :
    lookup (erase s k) k' = if k' = k then none else lookup s k' := by
  induction s with
  | nil => by_cases h : k' = k <;> simp [erase, lookup, h]
  | cons kv s ih =>
    by_cases hk : kv.1 = k
    · have he : erase (kv :: s) k = erase s k := by
        simp [erase, List.filter_cons, hk]
      rw [he, ih]
      by_cases h2 : k' = k
      · simp [h2]
      · have hne : kv.1 ≠ k' := by rw [hk]; exact fun hh => h2 hh.symm
        simp [h2, lookup_cons, hne]
    · have he : erase (kv :: s) k = kv :: erase s k := by
        simp [erase, List.filter_cons, hk]
      rw [he, lookup_cons, lookup_cons, ih]
      by_cases h : kv.1 = k' <;> by_cases h2 : k' = k <;> simp_all

end DocStore

/-- Availability of a product (`'available' | 'sold' | 'reserved'` in
`shared-types/ikea.types.ts`). -/
inductive Availability where
  | available
  | sold
  | reserved
deriving DecidableEq, Repr

/-- Price object shared by `IkeaProduct` and `IkeaProductDocument`:
`{current, original?, currency, discount?}`. -/
structure Price where
  current : ℚ
  original : Option ℚ
  currency : String
  discount : Option ℚ
deriving DecidableEq, Repr

/-- `IkeaProduct` from `shared-types/ikea.types.ts`: one canonical offer of a
catalog item, as produced by the snapshot normalizer. Optional TypeScript fields
are `Option`s; `Date` fields are clock values. -/
structure IkeaProduct where
  id : String
  offerId : String
  articleNumbers : List String
  name : String
  description : Option String
  price : Price
  condition : Option String
  category : Option String
  categoryId : Option String
  images : List String
  storeId : String
  storeName : Option String
  availability : Availability
  url : Option String
  isInBox : Option Bool
  reasonDiscount : Option String
  additionalInfo : Option String
  lastSeen : Nat
  firstSeen : Nat
deriving DecidableEq, Repr

/-- `IkeaProductDocument` from `shared-types/ikea.types.ts`: the persisted form of a
product, with all optional text fields defaulted to plain values. -/
structure IkeaProductDocument where
  id : String
  offerId : String
  articleNumbers : List String
  name : String
  description : String
  price : Price
  condition : String
  category : String
  categoryId : String
  images : List String
  storeId : String
  storeName : String
  availability : Availability
  url : String
  isInBox : Bool
  reasonDiscount : String
  additionalInfo : String
  lastSync : Nat
  firstSeen : Nat
  lastSeen : Nat
deriving DecidableEq, Repr

/-- Character-level JSON string escaping as performed by `JSON.stringify` on the
characters relevant to plain string data. -/
def jsonEscapeChar (c : Char) : String :=
  if c = '"' then "\\\"" else if c = '\\' then "\\\\" else String.singleton c

/-- JSON serialization of one string. -/
def jsonStringOfString (s : String) : String :=
  "\"" ++ String.join (s.data.map jsonEscapeChar) ++ "\""

/-- `JSON.stringify` of a string array, used by `syncProducts` to compare image
lists. -/
def jsonStringify (xs : List String) : String :=
  "[" ++ String.intercalate "," (xs.map jsonStringOfString) ++ "]"

/-- The `hasChanged` comparison of `IkeaSyncService.syncProducts`
(`sync.service.ts`): an existing document differs from a snapshot product when
name, current price, original price, availability, condition (defaulted to the
empty string) or the serialized image list differs. -/
def hasChanged (ex : IkeaProductDocument) (p : IkeaProduct) : Bool :=
  decide (ex.name ≠ p.name) ||
  decide (ex.price.current ≠ p.price.current) ||
  decide (ex.price.original ≠ p.price.original) ||
  decide (ex.availability ≠ p.availability) ||
  decide (ex.condition ≠ p.condition.getD "") ||
  decide (jsonStringify ex.images ≠ jsonStringify p.images)

/-- The `priceChanged` check of `IkeaSyncService.syncProducts`: current or
original price differs. -/
def priceChangedCheck (ex : IkeaProductDocument) (p : IkeaProduct) : Bool :=
  decide (ex.price.current ≠ p.price.current) ||
  decide (ex.price.original ≠ p.price.original)

/-- The document written for a brand-new product in `syncProducts` (the `else`
branch): every optional field defaulted, `firstSeen` and `lastSeen` both set to
the current time. -/
def mkNewDoc (p : IkeaProduct) (now : Nat) : IkeaProductDocument where
  id := p.id
  offerId := p.offerId
  articleNumbers := p.articleNumbers
  name := p.name
  description := p.description.getD ""
  price := ⟨p.price.current, p.price.original, p.price.currency, p.price.discount⟩
  condition := p.condition.getD ""
  category := p.category.getD ""
  categoryId := p.categoryId.getD ""
  images := p.images
  storeId := p.storeId
  storeName := p.storeName.getD ""
  availability := p.availability
  url := p.url.getD ""
  isInBox := p.isInBox.getD false
  reasonDiscount := p.reasonDiscount.getD ""
  additionalInfo := p.additionalInfo.getD ""
  lastSync := now
  firstSeen := now
  lastSeen := now

/-- The document written for a changed existing product in `syncProducts`: same
fields as a new document except that `firstSeen` keeps the existing record's
value ("Keep original firstSeen"). -/
def mkUpdatedDoc (ex : IkeaProductDocument) (p : IkeaProduct) (now : Nat) :
    IkeaProductDocument :=
  { mkNewDoc p now with firstSeen := ex.firstSeen }

/-- The result record of `syncProducts`: counters plus the added, removed and
price-changed product lists (`removedProducts` holds the persisted documents, as
in the source). -/
structure SyncOutcome where
  added : Nat
  updated : Nat
  removed : Nat
  addedProducts : List IkeaProduct
  removedProducts : List IkeaProductDocument
  priceChangedProducts : List IkeaProduct
deriving DecidableEq, Repr

/-- Mutable state of one `syncProducts` run: the products collection plus the
accumulated result. -/
structure SyncState where
  store : DocStore IkeaProductDocument
  out : SyncOutcome
deriving Repr

/-- `productsAdapter.query('storeId', '==', storeId)`. -/
def queryByStoreId (s : DocStore IkeaProductDocument) (sid : String) :
    List IkeaProductDocument :=
  (DocStore.values s).filter (fun d => decide (d.storeId = sid))

/-- `existingProductsMap`: index the queried documents by id
(`Map.prototype.set` in document order). -/
def buildProductsMap (docs : List IkeaProductDocument) :
    DocStore IkeaProductDocument :=
  docs.foldl (fun m d => DocStore.save m d d.id) []

/-- Body of the first loop of `syncProducts` ("Process new products (add or
update)") for one snapshot product. -/
def upsertStep (m : DocStore IkeaProductDocument) (now : Nat)
    (st : SyncState) (p : IkeaProduct) : SyncState :=
  match DocStore.lookup m p.id with
  | some ex =>
    if hasChanged ex p then
      { store := DocStore.save st.store (mkUpdatedDoc ex p now) p.id
        out := { st.out with
          updated := st.out.updated + 1
          priceChangedProducts :=
            if priceChangedCheck ex p then st.out.priceChangedProducts ++ [p]
            else st.out.priceChangedProducts } }
    else st
  | none =>
    { store := DocStore.save st.store (mkNewDoc p now) p.id
      out := { st.out with
        added := st.out.added + 1
        addedProducts := st.out.addedProducts ++ [p] } }

/-- Body of the second loop of `syncProducts` ("Remove products that no longer
exist") for one indexed existing product. -/
def removeStep (newProductIds : List String) (st : SyncState)
    (kv : String × IkeaProductDocument) : SyncState :=
  if decide (kv.1 ∈ newProductIds) then st
  else
    { store := DocStore.erase st.store kv.1
      out := { st.out with
        removed := st.out.removed + 1
        removedProducts := st.out.removedProducts ++ [kv.2] } }

/-- Shallow embedding of `IkeaSyncService.syncProducts(storeId, newProducts)`:
query the persisted products of the store, index them by id, add/update from the
snapshot, then delete persisted ids absent from the snapshot. Returns the result
record and the final products collection. -/
def syncProducts (store : DocStore IkeaProductDocument) (storeId : String)
    (newProducts : List IkeaProduct) (now : Nat) :
    SyncOutcome × DocStore IkeaProductDocument :=
  let existingProducts := queryByStoreId store storeId
  let existingProductsMap := buildProductsMap existingProducts
  let newProductIds := newProducts.map (·.id)
  let st0 : SyncState := ⟨store, ⟨0, 0, 0, [], [], []⟩⟩
  let st1 := newProducts.foldl (upsertStep existingProductsMap now) st0
  let st2 := existingProductsMap.foldl (removeStep newProductIds) st1
  (st2.out, st2.store)

/-! Wellformedness of a keyed collection and basic consequences. -/

/-- A collection is wellformed for a key function when its keys are distinct and
every document sits at its own key. Firestore guarantees this for the product
collection (documents are saved under `product.id`). -/
def DocStore.WF (s : DocStore α) (key : α → String) : Prop :=
  (DocStore.keys s).Nodup ∧ ∀ kv ∈ s, kv.1 = key kv.2

theorem DocStore.lookup_eq_none_iff (s : DocStore α) (k : String) :
    DocStore.lookup s k = none ↔ k ∉ DocStore.keys s := by
  induction s with
  | nil => simp [lookup, keys]
  | cons kv s ih =>
    rw [lookup_cons]
    by_cases h : kv.1 = k
    · simp [h, keys]
    · rw [if_neg h, ih]
      simp only [keys, List.map_cons, List.mem_cons]
      constructor
      · intro hk hc
        rcases hc with hc | hc
        · exact h hc.symm
        · exact hk hc
      · intro hc hm
        exact hc (Or.inr hm)

theorem DocStore.keys_eq_map_key (s : DocStore α) (key : α → String)
    (h : ∀ kv ∈ s, kv.1 = key kv.2) :
    DocStore.keys s = (DocStore.values s).map key := by
  induction s with
  | nil => rfl
  | cons kv s ih =>
    have h1 : kv.1 = key kv.2 := h kv (List.mem_cons_self kv s)
    have h2 : ∀ kv ∈ s, kv.1 = key kv.2 := fun x hx => h x (List.mem_cons_of_mem kv hx)
    simp only [keys, values, List.map_cons]
    rw [h1]
    congr 1
    simpa [keys, values] using ih h2

theorem DocStore.WF_save (s : DocStore α) (key : α → String) (v : α) (k : String)
    (h : DocStore.WF s key) (hk : key v = k) : DocStore.WF (save s v k) key := by
  cases hl : lookup s k with
  | none =>
    rw [save_of_absent s v k hl]
    constructor
    · have hnk : k ∉ keys s := (lookup_eq_none_iff s k).mp hl
      have hkeys : keys (s ++ [(k, v)]) = keys s ++ [k] := by simp [keys]
      rw [hkeys]
      refine List.Nodup.append h.1 (List.nodup_singleton k) ?_
      intro a ha hb
      rw [List.mem_singleton] at hb
      exact hnk (hb ▸ ha)
    · intro kv hkv
      rcases List.mem_append.mp hkv with hmem | hmem
      · exact h.2 kv hmem
      · rw [List.mem_singleton] at hmem
        rw [hmem]
        exact hk.symm
  | some w =>
    rw [save_of_present s v k (by rw [hl]; rfl)]
    constructor
    · have hkeys : keys (s.map (fun kv => if kv.1 = k then (k, v) else kv)) = keys s := by
        simp only [keys, List.map_map]
        apply List.map_congr_left
        intro kv _
        by_cases hh : kv.1 = k <;> simp [hh]
      rw [hkeys]
      exact h.1
    · intro kv hkv
      rcases List.mem_map.mp hkv with ⟨kv0, hmem0, heq⟩
      by_cases hh : kv0.1 = k
      · rw [if_pos hh] at heq
        rw [← heq]
        exact hk.symm
      · rw [if_neg hh] at heq
        rw [← heq]
        exact h.2 kv0 hmem0

theorem DocStore.WF_erase (s : DocStore α) (key : α → String) (k : String)
    (h : DocStore.WF s key) : DocStore.WF (erase s k) key := by
  constructor
  · have hsub : List.Sublist (erase s k) s := by
      simp only [erase]
      exact List.filter_sublist s
    have hkeys : List.Sublist (keys (erase s k)) (keys s) := by
      simp only [keys]
      exact hsub.map (fun kv => kv.1)
    exact h.1.sublist hkeys
  · intro kv hkv
    exact h.2 kv (List.mem_of_mem_filter hkv)

theorem DocStore.lookup_of_mem_values (s : DocStore α) (key : α → String)
    (h : DocStore.WF s key) (v : α) (hm : v ∈ DocStore.values s) :
    DocStore.lookup s (key v) = some v := by
  induction s with
  | nil => simp [values] at hm
  | cons kv s ih =>
    have hkey : kv.1 = key kv.2 := h.2 kv (List.mem_cons_self kv s)
    have hnodup : (kv.1 :: keys s).Nodup := by simpa [keys] using h.1
    have hWFs : DocStore.WF s key := ⟨(List.nodup_cons.mp hnodup).2,
      fun x hx => h.2 x (List.mem_cons_of_mem kv hx)⟩
    rw [lookup_cons]
    rcases List.mem_cons.mp (show v ∈ kv.2 :: DocStore.values s from hm) with hv | hv
    · rw [if_pos (by rw [hkey, hv]), hv]
    · have hne : kv.1 ≠ key v := by
        intro hcontra
        have hkeys : keys s = (values s).map key := keys_eq_map_key s key hWFs.2
        have hmem : key v ∈ keys s := by
          rw [hkeys]
          exact List.mem_map_of_mem key hv
        have hmem2 : kv.1 ∈ keys s := by
          rw [hcontra]
          exact hmem
        exact (List.nodup_cons.mp hnodup).1 hmem2
      rw [if_neg hne]
      exact ih hWFs hv

theorem DocStore.mem_of_lookup_eq_some (s : DocStore α) (k : String) (v : α)
    (h : DocStore.lookup s k = some v) : (k, v) ∈ s := by
  induction s with
  | nil => simp [lookup] at h
  | cons kv s ih =>
    rw [lookup_cons] at h
    by_cases hh : kv.1 = k
    · rw [if_pos hh] at h
      have hv : kv.2 = v := Option.some.inj h
      have hkv : (k, v) = kv := by rw [← hh, ← hv]
      rw [hkv]
      exact List.mem_cons_self kv s
    · rw [if_neg hh] at h
      exact List.mem_cons_of_mem kv (ih h)

/-! Characterization of the two loops of `syncProducts`. -/

/-- The id index built by `syncProducts` for a store: the queried documents keyed
by id. -/
def syncIndexOf (store : DocStore IkeaProductDocument) (sid : String) :
    DocStore IkeaProductDocument :=
  buildProductsMap (queryByStoreId store sid)

/-- Snapshot products with no persisted entry (classified `added`). -/
def addedOf (m : DocStore IkeaProductDocument) (ps : List IkeaProduct) :
    List IkeaProduct :=
  ps.filter (fun p => (DocStore.lookup m p.id).isNone)

/-- Snapshot products with a persisted entry from which they differ (classified
`updated`). -/
def updatedOf (m : DocStore IkeaProductDocument) (ps : List IkeaProduct) :
    List IkeaProduct :=
  ps.filter (fun p =>
    match DocStore.lookup m p.id with
    | some ex => hasChanged ex p
    | none => false)

/-- Updated snapshot products whose price changed. -/
def priceChangedOf (m : DocStore IkeaProductDocument) (ps : List IkeaProduct) :
    List IkeaProduct :=
  ps.filter (fun p =>
    match DocStore.lookup m p.id with
    | some ex => hasChanged ex p && priceChangedCheck ex p
    | none => false)

/-- Index entries whose id is absent from the snapshot (classified `removed`). -/
def removedEntriesOf (m : DocStore IkeaProductDocument) (ps : List IkeaProduct) :
    DocStore IkeaProductDocument :=
  m.filter (fun kv => !decide (kv.1 ∈ ps.map (·.id)))

theorem upsert_foldl_added (m : DocStore IkeaProductDocument) (now : Nat)
    (ps : List IkeaProduct) : ∀ st : SyncState,
    ((ps.foldl (upsertStep m now) st).out).added
      = st.out.added + (addedOf m ps).length := by
  induction ps with
  | nil => intro st; simp [addedOf]
  | cons p ps ih =>
    intro st
    rw [List.foldl_cons, ih]
    cases hl : DocStore.lookup m p.id with
    | none =>
      simp [upsertStep, hl, addedOf, List.filter_cons]
      omega
    | some ex =>
      by_cases hc : hasChanged ex p <;>
        simp [upsertStep, hl, hc, addedOf, List.filter_cons]

theorem upsert_foldl_updated (m : DocStore IkeaProductDocument) (now : Nat)
    (ps : List IkeaProduct) : ∀ st : SyncState,
    ((ps.foldl (upsertStep m now) st).out).updated
      = st.out.updated + (updatedOf m ps).length := by
  induction ps with
  | nil => intro st; simp [updatedOf]
  | cons p ps ih =>
    intro st
    rw [List.foldl_cons, ih]
    cases hl : DocStore.lookup m p.id with
    | none =>
      simp [upsertStep, hl, updatedOf, List.filter_cons]
    | some ex =>
      by_cases hc : hasChanged ex p
      · simp [upsertStep, hl, hc, updatedOf, List.filter_cons]
        omega
      · simp [upsertStep, hl, hc, updatedOf, List.filter_cons]

theorem upsert_foldl_addedProducts (m : DocStore IkeaProductDocument) (now : Nat)
    (ps : List IkeaProduct) : ∀ st : SyncState,
    ((ps.foldl (upsertStep m now) st).out).addedProducts
      = st.out.addedProducts ++ addedOf m ps := by
  induction ps with
  | nil => intro st; simp [addedOf]
  | cons p ps ih =>
    intro st
    rw [List.foldl_cons, ih]
    cases hl : DocStore.lookup m p.id with
    | none =>
      simp [upsertStep, hl, addedOf, List.filter_cons]
    | some ex =>
      by_cases hc : hasChanged ex p <;>
        simp [upsertStep, hl, hc, addedOf, List.filter_cons]

theorem upsert_foldl_priceChangedProducts (m : DocStore IkeaProductDocument)
    (now : Nat) (ps : List IkeaProduct) : ∀ st : SyncState,
    ((ps.foldl (upsertStep m now) st).out).priceChangedProducts
      = st.out.priceChangedProducts ++ priceChangedOf m ps := by
  induction ps with
  | nil => intro st; simp [priceChangedOf]
  | cons p ps ih =>
    intro st
    rw [List.foldl_cons, ih]
    cases hl : DocStore.lookup m p.id with
    | none =>
      simp [upsertStep, hl, priceChangedOf, List.filter_cons]
    | some ex =>
      by_cases hc : hasChanged ex p
      · by_cases hpc : priceChangedCheck ex p <;>
          simp [upsertStep, hl, hc, hpc, priceChangedOf, List.filter_cons]
      · simp [upsertStep, hl, hc, priceChangedOf, List.filter_cons]

theorem upsert_foldl_removed (m : DocStore IkeaProductDocument) (now : Nat)
    (ps : List IkeaProduct) : ∀ st : SyncState,
    ((ps.foldl (upsertStep m now) st).out).removed = st.out.removed := by
  induction ps with
  | nil => intro st; rfl
  | cons p ps ih =>
    intro st
    rw [List.foldl_cons, ih]
    cases hl : DocStore.lookup m p.id with
    | none => simp [upsertStep, hl]
    | some ex =>
      by_cases hc : hasChanged ex p <;> simp [upsertStep, hl, hc]

theorem upsert_foldl_removedProducts (m : DocStore IkeaProductDocument)
    (now : Nat) (ps : List IkeaProduct) : ∀ st : SyncState,
    ((ps.foldl (upsertStep m now) st).out).removedProducts
      = st.out.removedProducts := by
  induction ps with
  | nil => intro st; rfl
  | cons p ps ih =>
    intro st
    rw [List.foldl_cons, ih]
    cases hl : DocStore.lookup m p.id with
    | none => simp [upsertStep, hl]
    | some ex =>
      by_cases hc : hasChanged ex p <;> simp [upsertStep, hl, hc]

theorem upsert_foldl_store_stable (m : DocStore IkeaProductDocument) (now : Nat)
    (ps : List IkeaProduct) (k : String) : ∀ st : SyncState,
    (∀ p ∈ ps, p.id ≠ k) →
    DocStore.lookup ((ps.foldl (upsertStep m now) st).store) k
      = DocStore.lookup st.store k := by
  induction ps with
  | nil => intro st _; rfl
  | cons p ps ih =>
    intro st h
    have hp : p.id ≠ k := h p (List.mem_cons_self p ps)
    have hps : ∀ q ∈ ps, q.id ≠ k := fun q hq => h q (List.mem_cons_of_mem p hq)
    rw [List.foldl_cons, ih _ hps]
    have hpk : ¬ k = p.id := fun hh => hp hh.symm
    cases hl : DocStore.lookup m p.id with
    | none => simp [upsertStep, hl, DocStore.lookup_save, hpk]
    | some ex =>
      by_cases hc : hasChanged ex p <;>
        simp [upsertStep, hl, hc, DocStore.lookup_save, hpk]

theorem upsert_foldl_store_lookup (m : DocStore IkeaProductDocument) (now : Nat)
    (ps : List IkeaProduct) (p : IkeaProduct) : ∀ st : SyncState,
    p ∈ ps → (ps.map (·.id)).Nodup →
    DocStore.lookup ((ps.foldl (upsertStep m now) st).store) p.id =
      (match DocStore.lookup m p.id with
      | some ex =>
          if hasChanged ex p then some (mkUpdatedDoc ex p now)
          else DocStore.lookup st.store p.id
      | none => some (mkNewDoc p now)) := by
  induction ps with
  | nil => intro st hmem; exact absurd hmem (List.not_mem_nil p)
  | cons q ps ih =>
    intro st hmem hnodup
    have hnodup2 : (ps.map (·.id)).Nodup := (List.nodup_cons.mp hnodup).2
    rcases List.mem_cons.mp hmem with hq | hq
    · subst hq
      have hrest : ∀ r ∈ ps, r.id ≠ p.id := by
        intro r hr hcontra
        have hmm : r.id ∈ ps.map (·.id) := List.mem_map_of_mem (·.id) hr
        rw [hcontra] at hmm
        exact (List.nodup_cons.mp hnodup).1 hmm
      rw [List.foldl_cons, upsert_foldl_store_stable m now ps p.id _ hrest]
      cases hl : DocStore.lookup m p.id with
      | none => simp [upsertStep, hl, DocStore.lookup_save]
      | some ex =>
        by_cases hc : hasChanged ex p <;>
          simp [upsertStep, hl, hc, DocStore.lookup_save]
    · have hqp : q.id ≠ p.id := by
        intro hcontra
        have hmm : p.id ∈ ps.map (·.id) := List.mem_map_of_mem (·.id) hq
        rw [← hcontra] at hmm
        exact (List.nodup_cons.mp hnodup).1 hmm
      rw [List.foldl_cons, ih _ hq hnodup2]
      cases hl : DocStore.lookup m p.id with
      | none => rfl
      | some ex =>
        by_cases hc : hasChanged ex p
        · simp [hc]
        · simp only [hc, if_false]
          have hpq : ¬ p.id = q.id := fun hh => hqp hh.symm
          cases hlq : DocStore.lookup m q.id with
          | none =>
            simp [upsertStep, hlq, DocStore.lookup_save, hpq]
          | some exq =>
            by_cases hcq : hasChanged exq q <;>
              simp [upsertStep, hlq, hcq, DocStore.lookup_save, hpq]

theorem remove_foldl_upsert_fields (ids : List String)
    (entries : DocStore IkeaProductDocument) : ∀ st : SyncState,
    ((entries.foldl (removeStep ids) st).out).added = st.out.added
    ∧ ((entries.foldl (removeStep ids) st).out).updated = st.out.updated
    ∧ ((entries.foldl (removeStep ids) st).out).addedProducts = st.out.addedProducts
    ∧ ((entries.foldl (removeStep ids) st).out).priceChangedProducts
        = st.out.priceChangedProducts := by
  induction entries with
  | nil => intro st; exact ⟨rfl, rfl, rfl, rfl⟩
  | cons kv entries ih =>
    intro st
    rw [List.foldl_cons]
    have h := ih (removeStep ids st kv)
    have hstep : (removeStep ids st kv).out.added = st.out.added
        ∧ (removeStep ids st kv).out.updated = st.out.updated
        ∧ (removeStep ids st kv).out.addedProducts = st.out.addedProducts
        ∧ (removeStep ids st kv).out.priceChangedProducts
            = st.out.priceChangedProducts := by
      by_cases hmem : kv.1 ∈ ids <;> simp [removeStep, hmem]
    exact ⟨h.1.trans hstep.1, h.2.1.trans hstep.2.1, h.2.2.1.trans hstep.2.2.1,
      h.2.2.2.trans hstep.2.2.2⟩

theorem remove_foldl_removed (ids : List String)
    (entries : DocStore IkeaProductDocument) : ∀ st : SyncState,
    ((entries.foldl (removeStep ids) st).out).removed
      = st.out.removed
        + (entries.filter (fun kv => !decide (kv.1 ∈ ids))).length := by
  induction entries with
  | nil => intro st; simp
  | cons kv entries ih =>
    intro st
    rw [List.foldl_cons, ih]
    by_cases hmem : kv.1 ∈ ids
    · simp [removeStep, hmem, List.filter_cons]
    · simp [removeStep, hmem, List.filter_cons]
      omega

theorem remove_foldl_removedProducts (ids : List String)
    (entries : DocStore IkeaProductDocument) : ∀ st : SyncState,
    ((entries.foldl (removeStep ids) st).out).removedProducts
      = st.out.removedProducts
        ++ (entries.filter (fun kv => !decide (kv.1 ∈ ids))).map (·.2) := by
  induction entries with
  | nil => intro st; simp
  | cons kv entries ih =>
    intro st
    rw [List.foldl_cons, ih]
    by_cases hmem : kv.1 ∈ ids <;>
      simp [removeStep, hmem, List.filter_cons]

theorem remove_foldl_store_lookup (ids : List String)
    (entries : DocStore IkeaProductDocument) (k : String) : ∀ st : SyncState,
    DocStore.lookup ((entries.foldl (removeStep ids) st).store) k =
      if entries.any (fun kv => decide (kv.1 = k) && !decide (kv.1 ∈ ids)) then none
      else DocStore.lookup st.store k := by
  induction entries with
  | nil => intro st; simp
  | cons kv entries ih =>
    intro st
    rw [List.foldl_cons, ih, List.any_cons]
    by_cases hmem : kv.1 ∈ ids
    · have hb : decide (kv.1 ∈ ids) = true := decide_eq_true hmem
      have hred : removeStep ids st kv = st := by
        unfold removeStep
        rw [hb, if_pos rfl]
      rw [hred, hb]
      simp only [Bool.not_true, Bool.and_false, Bool.false_or]
    · have hb : decide (kv.1 ∈ ids) = false := decide_eq_false hmem
      have hstore : (removeStep ids st kv).store = DocStore.erase st.store kv.1 := by
        unfold removeStep
        rw [hb, if_neg Bool.false_ne_true]
      by_cases hk : kv.1 = k
      · subst hk
        have hbk : decide (kv.1 = kv.1) = true := decide_eq_true rfl
        rw [hbk, hb, hstore]
        simp only [Bool.not_false, Bool.true_and, Bool.true_or]
        rw [if_pos trivial]
        cases ha : entries.any (fun kv2 => decide (kv2.1 = kv.1) && !decide (kv2.1 ∈ ids)) with
        | true => rw [if_pos rfl]
        | false =>
          rw [if_neg Bool.false_ne_true, DocStore.lookup_erase, if_pos rfl]
      · have hbk : decide (kv.1 = k) = false := decide_eq_false hk
        have hk2 : ¬ k = kv.1 := fun hh => hk hh.symm
        rw [hbk, hstore, DocStore.lookup_erase, if_neg hk2]
        simp only [Bool.false_and, Bool.false_or]

theorem upsert_foldl_WF (m : DocStore IkeaProductDocument) (now : Nat)
    (ps : List IkeaProduct) : ∀ st : SyncState, DocStore.WF st.store (·.id) →
    DocStore.WF ((ps.foldl (upsertStep m now) st).store) (·.id) := by
  induction ps with
  | nil => intro st h; exact h
  | cons p ps ih =>
    intro st h
    rw [List.foldl_cons]
    apply ih
    cases hl : DocStore.lookup m p.id with
    | none =>
      simp only [upsertStep, hl]
      exact DocStore.WF_save st.store (·.id) (mkNewDoc p now) p.id h rfl
    | some ex =>
      by_cases hc : hasChanged ex p
      · simp only [upsertStep, hl, hc, if_true]
        exact DocStore.WF_save st.store (·.id) (mkUpdatedDoc ex p now) p.id h rfl
      · simp only [upsertStep, hl, hc, if_false]
        exact h

theorem remove_foldl_WF (ids : List String)
    (entries : DocStore IkeaProductDocument) : ∀ st : SyncState,
    DocStore.WF st.store (·.id) →
    DocStore.WF ((entries.foldl (removeStep ids) st).store) (·.id) := by
  induction entries with
  | nil => intro st h; exact h
  | cons kv entries ih =>
    intro st h
    rw [List.foldl_cons]
    apply ih
    by_cases hmem : kv.1 ∈ ids
    · simp only [removeStep, hmem, decide_True, if_true]
      exact h
    · simp only [removeStep, hmem, decide_False, if_false]
      exact DocStore.WF_erase st.store (·.id) kv.1 h

theorem buildProductsMap_go (docs : List IkeaProductDocument) :
    ∀ m : DocStore IkeaProductDocument,
    (∀ d ∈ docs, DocStore.lookup m d.id = none) →
    ((docs.map (·.id)).Nodup) →
    docs.foldl (fun m d => DocStore.save m d d.id) m
      = m ++ docs.map (fun d => (d.id, d)) := by
  induction docs with
  | nil => intro m _ _; simp
  | cons d docs ih =>
    intro m hdis hnodup
    rw [List.foldl_cons,
      DocStore.save_of_absent m d d.id (hdis d (List.mem_cons_self d docs))]
    have hdis2 : ∀ d2 ∈ docs, DocStore.lookup (m ++ [(d.id, d)]) d2.id = none := by
      intro d2 hd2
      rw [DocStore.lookup_append, hdis d2 (List.mem_cons_of_mem d hd2)]
      have hne : ¬ d.id = d2.id := by
        intro hcontra
        have hmm : d2.id ∈ docs.map (·.id) := List.mem_map_of_mem (·.id) hd2
        rw [← hcontra] at hmm
        exact (List.nodup_cons.mp hnodup).1 hmm
      rw [DocStore.lookup_cons]
      simp [hne, DocStore.lookup_nil]
    rw [ih (m ++ [(d.id, d)]) hdis2 (List.nodup_cons.mp hnodup).2]
    simp

theorem buildProductsMap_eq (docs : List IkeaProductDocument)
    (h : (docs.map (·.id)).Nodup) :
    buildProductsMap docs = docs.map (fun d => (d.id, d)) := by
  have hgo := buildProductsMap_go docs [] (fun d _ => rfl) h
  simpa [buildProductsMap] using hgo

theorem lookup_pairmap (docs : List IkeaProductDocument) (k : String) :
    DocStore.lookup (docs.map (fun d => (d.id, d))) k
      = docs.find? (fun d => decide (d.id = k)) := by
  induction docs with
  | nil => rfl
  | cons d docs ih =>
    rw [List.map_cons, DocStore.lookup_cons]
    by_cases h : d.id = k <;> simp [List.find?, h, ih]

theorem find?_query (s : DocStore IkeaProductDocument) (sid k : String) :
    DocStore.WF s (·.id) →
    (queryByStoreId s sid).find? (fun d => decide (d.id = k))
      = (DocStore.lookup s k).bind
          (fun d => if d.storeId = sid then some d else none) := by
  induction s with
  | nil => intro _; rfl
  | cons kv s ih =>
    intro h
    have hkey : kv.1 = kv.2.id := h.2 kv (List.mem_cons_self kv s)
    have hnodup : (kv.1 :: DocStore.keys s).Nodup := by
      simpa [DocStore.keys] using h.1
    have hWFs : DocStore.WF s (·.id) := ⟨(List.nodup_cons.mp hnodup).2,
      fun x hx => h.2 x (List.mem_cons_of_mem kv hx)⟩
    have hquery : queryByStoreId (kv :: s) sid
        = if kv.2.storeId = sid then kv.2 :: queryByStoreId s sid
          else queryByStoreId s sid := by
      by_cases hsid : kv.2.storeId = sid <;>
        simp [queryByStoreId, DocStore.values, List.filter_cons, hsid]
    rw [hquery, DocStore.lookup_cons]
    by_cases hk : kv.1 = k
    · have hid : kv.2.id = k := by rw [← hkey]; exact hk
      by_cases hsid : kv.2.storeId = sid
      · simp [hsid, hk, List.find?, hid]
      · have hnone : ∀ d ∈ queryByStoreId s sid, ¬ (d.id = k) := by
          intro d hd hcontra
          have hdv : d ∈ DocStore.values s := List.mem_of_mem_filter hd
          have hmm : d.id ∈ DocStore.keys s := by
            rw [DocStore.keys_eq_map_key s (·.id) hWFs.2]
            exact List.mem_map_of_mem (·.id) hdv
          rw [hcontra] at hmm
          have hkk : kv.1 ∈ DocStore.keys s := by rw [hk]; exact hmm
          exact (List.nodup_cons.mp hnodup).1 hkk
        have hfind : (queryByStoreId s sid).find? (fun d => decide (d.id = k))
            = none := by
          apply List.find?_eq_none.mpr
          intro d hd
          simpa using hnone d hd
        simp [hsid, hk, hfind]
    · by_cases hsid : kv.2.storeId = sid
      · have hid : ¬ (kv.2.id = k) := fun hc => hk (hkey.trans hc)
        simp [hsid, hk, List.find?, hid, ih hWFs]
      · simp [hsid, hk, ih hWFs]

theorem syncProducts_index_lookup (store : DocStore IkeaProductDocument)
    (sid k : String) (h : DocStore.WF store (·.id)) :
    DocStore.lookup (syncIndexOf store sid) k
      = (DocStore.lookup store k).bind
          (fun d => if d.storeId = sid then some d else none) := by
  have hkeys : DocStore.keys store = (DocStore.values store).map (·.id) :=
    DocStore.keys_eq_map_key store (·.id) h.2
  have hval : ((DocStore.values store).map (·.id)).Nodup := hkeys ▸ h.1
  have hsub : List.Sublist (queryByStoreId store sid) (DocStore.values store) := by
    simp only [queryByStoreId]
    exact List.filter_sublist _
  have hids : ((queryByStoreId store sid).map (·.id)).Nodup :=
    hval.sublist (hsub.map (fun d => d.id))
  rw [syncIndexOf, buildProductsMap_eq _ hids, lookup_pairmap]
  exact find?_query store sid k h

theorem SyncOutcome.ext6 (o₁ o₂ : SyncOutcome)
    (h1 : o₁.added = o₂.added) (h2 : o₁.updated = o₂.updated)
    (h3 : o₁.removed = o₂.removed) (h4 : o₁.addedProducts = o₂.addedProducts)
    (h5 : o₁.removedProducts = o₂.removedProducts)
    (h6 : o₁.priceChangedProducts = o₂.priceChangedProducts) : o₁ = o₂ := by
  cases o₁
  cases o₂
  simp_all

theorem syncProducts_def (store : DocStore IkeaProductDocument) (sid : String)
    (ps : List IkeaProduct) (now : Nat) :
    syncProducts store sid ps now =
      (((syncIndexOf store sid).foldl (removeStep (ps.map (·.id)))
          (ps.foldl (upsertStep (syncIndexOf store sid) now)
            ⟨store, ⟨0, 0, 0, [], [], []⟩⟩)).out,
       ((syncIndexOf store sid).foldl (removeStep (ps.map (·.id)))
          (ps.foldl (upsertStep (syncIndexOf store sid) now)
            ⟨store, ⟨0, 0, 0, [], [], []⟩⟩)).store) := rfl

theorem syncProducts_out (store : DocStore IkeaProductDocument) (sid : String)
    (ps : List IkeaProduct) (now : Nat) :
    (syncProducts store sid ps now).1 =
      ⟨(addedOf (syncIndexOf store sid) ps).length,
       (updatedOf (syncIndexOf store sid) ps).length,
       (removedEntriesOf (syncIndexOf store sid) ps).length,
       addedOf (syncIndexOf store sid) ps,
       (removedEntriesOf (syncIndexOf store sid) ps).map (·.2),
       priceChangedOf (syncIndexOf store sid) ps⟩ := by
  rw [syncProducts_def]
  apply SyncOutcome.ext6
  · rw [(remove_foldl_upsert_fields _ _ _).1, upsert_foldl_added]
    simp
  · rw [(remove_foldl_upsert_fields _ _ _).2.1, upsert_foldl_updated]
    simp
  · rw [remove_foldl_removed, upsert_foldl_removed]
    simp [removedEntriesOf]
  · rw [(remove_foldl_upsert_fields _ _ _).2.2.1, upsert_foldl_addedProducts]
    simp
  · rw [remove_foldl_removedProducts, upsert_foldl_removedProducts]
    simp [removedEntriesOf]
  · rw [(remove_foldl_upsert_fields _ _ _).2.2.2, upsert_foldl_priceChangedProducts]
    simp

theorem syncProducts_WF (store : DocStore IkeaProductDocument) (sid : String)
    (ps : List IkeaProduct) (now : Nat) (h : DocStore.WF store (·.id)) :
    DocStore.WF (syncProducts store sid ps now).2 (·.id) := by
  rw [syncProducts_def]
  exact remove_foldl_WF _ _ _ (upsert_foldl_WF _ _ _ _ h)

theorem any_key_mem (m : DocStore α) (k : String) (ids : List String) :
    m.any (fun kv => decide (kv.1 = k) && !decide (kv.1 ∈ ids))
      = ((DocStore.lookup m k).isSome && !decide (k ∈ ids)) := by
  induction m with
  | nil => simp [DocStore.lookup]
  | cons kv m ih =>
    rw [List.any_cons, DocStore.lookup_cons, ih]
    by_cases h : kv.1 = k
    · subst h
      have hd : decide (kv.1 = kv.1) = true := decide_eq_true rfl
      rw [hd, if_pos rfl]
      cases hP : (!decide (kv.1 ∈ ids)) <;>
        simp only [hP, Bool.and_false, Bool.or_self, Bool.and_true, Bool.true_or,
          Option.isSome_some]
    · have hd : decide (kv.1 = k) = false := decide_eq_false h
      rw [hd, if_neg h]
      simp only [Bool.false_and, Bool.false_or]

theorem find?_id_of_mem (ps : List IkeaProduct) (p : IkeaProduct) :
    p ∈ ps → (ps.map (·.id)).Nodup →
    ps.find? (fun q => decide (q.id = p.id)) = some p := by
  induction ps with
  | nil => intro hmem _; cases hmem
  | cons q ps ih =>
    intro hmem hnodup
    rcases List.mem_cons.mp hmem with h | h
    · subst h
      have hd : decide (p.id = p.id) = true := decide_eq_true rfl
      simp [List.find?, hd]
    · have hq : ¬ q.id = p.id := by
        intro hc
        have hmm : p.id ∈ ps.map (·.id) := List.mem_map_of_mem (·.id) h
        rw [← hc] at hmm
        exact (List.nodup_cons.mp hnodup).1 hmm
      have hd : decide (q.id = p.id) = false := decide_eq_false hq
      simp only [List.find?, hd]
      exact ih h (List.nodup_cons.mp hnodup).2

theorem syncProducts_lookup (store : DocStore IkeaProductDocument) (sid : String)
    (ps : List IkeaProduct) (now : Nat) (k : String)
    (hWF : DocStore.WF store (·.id)) (hnodup : (ps.map (·.id)).Nodup) :
    DocStore.lookup (syncProducts store sid ps now).2 k =
      (match ps.find? (fun q => decide (q.id = k)) with
      | some p =>
        (match DocStore.lookup store k with
        | some ex =>
          if ex.storeId = sid then
            (if hasChanged ex p then some (mkUpdatedDoc ex p now) else some ex)
          else some (mkNewDoc p now)
        | none => some (mkNewDoc p now))
      | none =>
        (match DocStore.lookup store k with
        | some ex => if ex.storeId = sid then none else some ex
        | none => none)) := by
  rw [syncProducts_def]
  show DocStore.lookup ((syncIndexOf store sid).foldl (removeStep (ps.map (·.id)))
      (ps.foldl (upsertStep (syncIndexOf store sid) now)
        ⟨store, ⟨0, 0, 0, [], [], []⟩⟩)).store k = _
  rw [remove_foldl_store_lookup, any_key_mem]
  cases hfind : ps.find? (fun q => decide (q.id = k)) with
  | some p =>
    have hpk : p.id = k := by
      have hp := List.find?_some hfind
      simpa using hp
    have hpm : p ∈ ps := List.mem_of_find?_eq_some hfind
    have hkid : k ∈ ps.map (·.id) := by
      rw [← hpk]
      exact List.mem_map_of_mem (·.id) hpm
    have hknotB : (!decide (k ∈ ps.map (·.id))) = false := by
      rw [decide_eq_true hkid]
      rfl
    rw [hknotB]
    simp only [Bool.and_false]
    rw [if_neg Bool.false_ne_true]
    have hup := upsert_foldl_store_lookup (syncIndexOf store sid) now ps p
      ⟨store, ⟨0, 0, 0, [], [], []⟩⟩ hpm hnodup
    have hst0 : ((⟨store, ⟨0, 0, 0, [], [], []⟩⟩ : SyncState)).store = store := rfl
    rw [hst0] at hup
    rw [hpk] at hup
    rw [hup, syncProducts_index_lookup store sid k hWF]
    cases hls : DocStore.lookup store k with
    | none => rfl
    | some ex =>
      by_cases hsid : ex.storeId = sid
      · rw [Option.some_bind, if_pos hsid]
        show (if hasChanged ex p = true then some (mkUpdatedDoc ex p now) else some ex)
          = if ex.storeId = sid then
              (if hasChanged ex p = true then some (mkUpdatedDoc ex p now) else some ex)
            else some (mkNewDoc p now)
        rw [if_pos hsid]
      · rw [Option.some_bind, if_neg hsid]
        show some (mkNewDoc p now)
          = if ex.storeId = sid then
              (if hasChanged ex p = true then some (mkUpdatedDoc ex p now) else some ex)
            else some (mkNewDoc p now)
        rw [if_neg hsid]
  | none =>
    have hne : ∀ q ∈ ps, q.id ≠ k := by
      intro q hq hc
      exact (List.find?_eq_none.mp hfind q hq) (decide_eq_true hc)
    have hnotin : k ∉ ps.map (·.id) := by
      intro hc
      rcases List.mem_map.mp hc with ⟨q, hq, hqid⟩
      exact hne q hq hqid
    have hnotB : (!decide (k ∈ ps.map (·.id))) = true := by
      rw [decide_eq_false hnotin]
      rfl
    rw [hnotB]
    simp only [Bool.and_true]
    have hstable := upsert_foldl_store_stable (syncIndexOf store sid) now ps k
      ⟨store, ⟨0, 0, 0, [], [], []⟩⟩ hne
    have hst0 : ((⟨store, ⟨0, 0, 0, [], [], []⟩⟩ : SyncState)).store = store := rfl
    rw [hst0] at hstable
    rw [hstable, syncProducts_index_lookup store sid k hWF]
    cases hls : DocStore.lookup store k with
    | none => rfl
    | some ex =>
      by_cases hsid : ex.storeId = sid
      · rw [Option.some_bind, if_pos hsid]
        show (none : Option IkeaProductDocument)
          = if ex.storeId = sid then none else some ex
        rw [if_pos hsid]
      · rw [Option.some_bind, if_neg hsid]
        show some ex = if ex.storeId = sid then none else some ex
        rw [if_neg hsid]

/-- Persisted document for product "1-a" of store "1" at price 10 (Scenario A and
the lastSeen counterexample). -/
def docA : IkeaProductDocument where
  id := "1-a"
  offerId := "a"
  articleNumbers := []
  name := "Shelf"
  description := ""
  price := ⟨10, none, "EUR", none⟩
  condition := ""
  category := ""
  categoryId := ""
  images := []
  storeId := "1"
  storeName := ""
  availability := Availability.available
  url := ""
  isInBox := false
  reasonDiscount := ""
  additionalInfo := ""
  lastSync := 0
  firstSeen := 0
  lastSeen := 0

/-- Persisted document for product "1-b" of store "1" at price 5 (Scenario A). -/
def docB : IkeaProductDocument where
  id := "1-b"
  offerId := "b"
  articleNumbers := []
  name := "Chair"
  description := ""
  price := ⟨5, none, "EUR", none⟩
  condition := ""
  category := ""
  categoryId := ""
  images := []
  storeId := "1"
  storeName := ""
  availability := Availability.available
  url := ""
  isInBox := false
  reasonDiscount := ""
  additionalInfo := ""
  lastSync := 0
  firstSeen := 0
  lastSeen := 0

/-- Scenario A persisted state: products 1-a@10 and 1-b@5. -/
def scenarioAStore : DocStore IkeaProductDocument := [("1-a", docA), ("1-b", docB)]

/-- Snapshot product 1-a@10, identical to `docA` in every compared field. -/
def prodA : IkeaProduct where
  id := "1-a"
  offerId := "a"
  articleNumbers := []
  name := "Shelf"
  description := none
  price := ⟨10, none, "EUR", none⟩
  condition := none
  category := none
  categoryId := none
  images := []
  storeId := "1"
  storeName := none
  availability := Availability.available
  url := none
  isInBox := none
  reasonDiscount := none
  additionalInfo := none
  lastSeen := 5
  firstSeen := 5

/-- Snapshot product 1-c@7, absent from the persisted state. -/
def prodC : IkeaProduct where
  id := "1-c"
  offerId := "c"
  articleNumbers := []
  name := "Lamp"
  description := none
  price := ⟨7, none, "EUR", none⟩
  condition := none
  category := none
  categoryId := none
  images := []
  storeId := "1"
  storeName := none
  availability := Availability.available
  url := none
  isInBox := none
  reasonDiscount := none
  additionalInfo := none
  lastSeen := 5
  firstSeen := 5

/-- Scenario A snapshot: products 1-a@10 and 1-c@7. -/
def scenarioASnapshot : List IkeaProduct := [prodA, prodC]

theorem query_ids_nodup (store : DocStore IkeaProductDocument) (sid : String)
    (h : DocStore.WF store (·.id)) :
    ((queryByStoreId store sid).map (·.id)).Nodup := by
  have hkeys : DocStore.keys store = (DocStore.values store).map (·.id) :=
    DocStore.keys_eq_map_key store (·.id) h.2
  have hval : ((DocStore.values store).map (·.id)).Nodup := hkeys ▸ h.1
  have hsub : List.Sublist (queryByStoreId store sid) (DocStore.values store) := by
    simp only [queryByStoreId]
    exact List.filter_sublist _
  exact hval.sublist (hsub.map (fun d => d.id))

theorem syncIndexOf_eq (store : DocStore IkeaProductDocument) (sid : String)
    (h : DocStore.WF store (·.id)) :
    syncIndexOf store sid = (queryByStoreId store sid).map (fun d => (d.id, d)) :=
  buildProductsMap_eq _ (query_ids_nodup store sid h)

theorem DocStore.lookup_isSome_of_mem (s : DocStore α) (kv : String × α)
    (h : kv ∈ s) : (DocStore.lookup s kv.1).isSome := by
  induction s with
  | nil => cases h
  | cons kv2 s ih =>
    rw [lookup_cons]
    rcases List.mem_cons.mp h with h2 | h2
    · subst h2
      rw [if_pos rfl]
      rfl
    · by_cases hc : kv2.1 = kv.1
      · rw [if_pos hc]
        rfl
      · rw [if_neg hc]
        exact ih h2

/-- C1: the change-set computed by `syncProducts` partitions correctly: every
snapshot product whose id has no persisted entry is classified added; every
persisted product of the store whose id is absent from the snapshot id set is
classified removed; the added, updated and removed classifications are pairwise
disjoint by id; and in particular Scenario A — persisted 1-a@10, 1-b@5 against
snapshot 1-a@10, 1-c@7 — yields added = the 1-c product, no update, and removed
= the 1-b document. -/
theorem syncProducts_partition (store : DocStore IkeaProductDocument)
    (sid : String) (ps : List IkeaProduct) (now : Nat)
    (hWF : DocStore.WF store (·.id)) :
    (∀ p ∈ ps, DocStore.lookup (syncIndexOf store sid) p.id = none →
      p ∈ (syncProducts store sid ps now).1.addedProducts) ∧
    (∀ ex ∈ queryByStoreId store sid, ex.id ∉ ps.map (·.id) →
      ex ∈ (syncProducts store sid ps now).1.removedProducts) ∧
    (∀ p ∈ (syncProducts store sid ps now).1.addedProducts,
     ∀ d ∈ (syncProducts store sid ps now).1.removedProducts, p.id ≠ d.id) ∧
    (∀ p ∈ ps, ∀ ex, DocStore.lookup (syncIndexOf store sid) p.id = some ex →
      hasChanged ex p = true →
      p ∉ (syncProducts store sid ps now).1.addedProducts ∧
      ∀ d ∈ (syncProducts store sid ps now).1.removedProducts, p.id ≠ d.id) ∧
    ((syncProducts scenarioAStore "1" scenarioASnapshot 5).1.addedProducts
        = [prodC]
      ∧ (syncProducts scenarioAStore "1" scenarioASnapshot 5).1.updated = 0
      ∧ (syncProducts scenarioAStore "1" scenarioASnapshot 5).1.removedProducts
        = [docB]
      ∧ (syncProducts scenarioAStore "1" scenarioASnapshot 5).1.added = 1
      ∧ (syncProducts scenarioAStore "1" scenarioASnapshot 5).1.removed = 1) := by
  have hADD : (syncProducts store sid ps now).1.addedProducts
      = addedOf (syncIndexOf store sid) ps := by
    rw [syncProducts_out]
  have hREM : (syncProducts store sid ps now).1.removedProducts
      = (removedEntriesOf (syncIndexOf store sid) ps).map (·.2) := by
    rw [syncProducts_out]
  have hm := syncIndexOf_eq store sid hWF
  refine ⟨?_, ?_, ?_, ?_, ?_⟩
  · intro p hp hlook
    rw [hADD]
    refine List.mem_filter.mpr ⟨hp, ?_⟩
    rw [hlook]
    rfl
  · intro ex hex hnot
    rw [hREM]
    have hkv : (ex.id, ex) ∈ syncIndexOf store sid := by
      rw [hm]
      exact List.mem_map_of_mem (fun d => (d.id, d)) hex
    have hmem2 : (ex.id, ex) ∈ removedEntriesOf (syncIndexOf store sid) ps := by
      refine List.mem_filter.mpr ⟨hkv, ?_⟩
      rw [decide_eq_false hnot]
      rfl
    exact List.mem_map_of_mem (·.2) hmem2
  · intro p hp d hd hcontra
    rw [hADD] at hp
    rw [hREM] at hd
    have hnone : (DocStore.lookup (syncIndexOf store sid) p.id).isNone = true :=
      (List.mem_filter.mp hp).2
    rcases List.mem_map.mp hd with ⟨kv, hkvmem, hkv2⟩
    have hkvm : kv ∈ syncIndexOf store sid := (List.mem_filter.mp hkvmem).1
    have hkey : kv.1 = kv.2.id := by
      rw [hm] at hkvm
      rcases List.mem_map.mp hkvm with ⟨d0, _, hd0⟩
      rw [← hd0]
    have hsome : (DocStore.lookup (syncIndexOf store sid) kv.1).isSome :=
      DocStore.lookup_isSome_of_mem _ kv hkvm
    rw [hkey, hkv2, ← hcontra] at hsome
    rw [Option.isNone_iff_eq_none.mp hnone] at hsome
    cases hsome
  · intro p hp ex hex hchanged
    constructor
    · intro hmem2
      rw [hADD] at hmem2
      have hnone : (DocStore.lookup (syncIndexOf store sid) p.id).isNone = true :=
        (List.mem_filter.mp hmem2).2
      rw [hex] at hnone
      cases hnone
    · intro d hd hcontra
      rw [hREM] at hd
      rcases List.mem_map.mp hd with ⟨kv, hkvmem, hkv2⟩
      have hnotmem : (!decide (kv.1 ∈ ps.map (·.id))) = true :=
        (List.mem_filter.mp hkvmem).2
      have hkvm : kv ∈ syncIndexOf store sid := (List.mem_filter.mp hkvmem).1
      have hkey : kv.1 = kv.2.id := by
        rw [hm] at hkvm
        rcases List.mem_map.mp hkvm with ⟨d0, _, hd0⟩
        rw [← hd0]
      have hpid : p.id ∈ ps.map (·.id) := List.mem_map_of_mem (·.id) hp
      rw [hcontra, ← hkv2, ← hkey] at hpid
      rw [decide_eq_true hpid] at hnotmem
      cases hnotmem
  · refine ⟨by decide, by decide, by decide, by decide, by decide⟩

/-- Witness for C1 at Scenario A: the snapshot product 1-c has no persisted
entry and is classified added. -/
theorem syncProducts_partition_witness :
    prodC ∈ (syncProducts scenarioAStore "1" scenarioASnapshot 5).1.addedProducts :=
  (syncProducts_partition scenarioAStore "1" scenarioASnapshot 5
    ⟨by decide, by decide⟩).1 prodC (by decide) (by decide)

/-- The fixed comparison field set, stated from the spec's words: name, current
price, original price, availability, condition (defaulted to the empty string)
or the serialized image list differ. -/
def specFieldsDiffer (ex : IkeaProductDocument) (p : IkeaProduct) : Prop :=
  ex.name ≠ p.name ∨ ex.price.current ≠ p.price.current
  ∨ ex.price.original ≠ p.price.original ∨ ex.availability ≠ p.availability
  ∨ ex.condition ≠ p.condition.getD ""
  ∨ jsonStringify ex.images ≠ jsonStringify p.images

theorem hasChanged_iff_spec (ex : IkeaProductDocument) (p : IkeaProduct) :
    hasChanged ex p = true ↔ specFieldsDiffer ex p := by
  simp only [hasChanged, specFieldsDiffer, Bool.or_eq_true, decide_eq_true_eq]
  tauto

theorem priceChanged_imp_hasChanged (ex : IkeaProductDocument) (p : IkeaProduct) :
    priceChangedCheck ex p = true → hasChanged ex p = true := by
  intro h
  simp only [priceChangedCheck, Bool.or_eq_true, decide_eq_true_eq] at h
  simp only [hasChanged, Bool.or_eq_true, decide_eq_true_eq]
  tauto

/-- C2: a snapshot product whose id has a persisted entry for the store is
classified updated iff at least one field of the fixed set (name, current price,
original price, availability, condition, serialized images) differs — when a
field differs the document is re-written (with refreshed timestamps), otherwise
the persisted document is left exactly as it was — and such a product joins the
price-changed set iff its current or original price differs. -/
theorem syncProducts_updated_iff (store : DocStore IkeaProductDocument)
    (sid : String) (ps : List IkeaProduct) (now : Nat) (p : IkeaProduct)
    (ex : IkeaProductDocument)
    (hWF : DocStore.WF store (·.id)) (hnodup : (ps.map (·.id)).Nodup)
    (hmem : p ∈ ps) (hex : DocStore.lookup store p.id = some ex)
    (hsid : ex.storeId = sid) :
    (specFieldsDiffer ex p →
      DocStore.lookup (syncProducts store sid ps now).2 p.id
        = some (mkUpdatedDoc ex p now)) ∧
    (¬ specFieldsDiffer ex p →
      DocStore.lookup (syncProducts store sid ps now).2 p.id = some ex) ∧
    (p ∈ (syncProducts store sid ps now).1.priceChangedProducts ↔
      (ex.price.current ≠ p.price.current ∨ ex.price.original ≠ p.price.original)) := by
  have hfind : ps.find? (fun q => decide (q.id = p.id)) = some p :=
    find?_id_of_mem ps p hmem hnodup
  have hlook : DocStore.lookup (syncProducts store sid ps now).2 p.id
      = if hasChanged ex p = true then some (mkUpdatedDoc ex p now) else some ex := by
    rw [syncProducts_lookup store sid ps now p.id hWF hnodup, hfind]
    show (match DocStore.lookup store p.id with
      | some ex2 =>
        if ex2.storeId = sid then
          (if hasChanged ex2 p = true then some (mkUpdatedDoc ex2 p now) else some ex2)
        else some (mkNewDoc p now)
      | none => some (mkNewDoc p now)) = _
    rw [hex]
    show (if ex.storeId = sid then
        (if hasChanged ex p = true then some (mkUpdatedDoc ex p now) else some ex)
      else some (mkNewDoc p now)) = _
    rw [if_pos hsid]
  have hmidx : DocStore.lookup (syncIndexOf store sid) p.id = some ex := by
    rw [syncProducts_index_lookup store sid p.id hWF, hex, Option.some_bind,
      if_pos hsid]
  refine ⟨?_, ?_, ?_⟩
  · intro hdiff
    rw [hlook, if_pos ((hasChanged_iff_spec ex p).mpr hdiff)]
  · intro hdiff
    have hfalse : ¬ hasChanged ex p = true :=
      fun hc => hdiff ((hasChanged_iff_spec ex p).mp hc)
    rw [hlook, if_neg hfalse]
  · have hPC : (syncProducts store sid ps now).1.priceChangedProducts
        = priceChangedOf (syncIndexOf store sid) ps := by
      rw [syncProducts_out]
    rw [hPC]
    constructor
    · intro hmem2
      have hcond : (match DocStore.lookup (syncIndexOf store sid) p.id with
          | some exq => hasChanged exq p && priceChangedCheck exq p
          | none => false) = true := (List.mem_filter.mp hmem2).2
      rw [hmidx] at hcond
      have hcond2 : (hasChanged ex p && priceChangedCheck ex p) = true := hcond
      rw [Bool.and_eq_true] at hcond2
      have hpc := hcond2.2
      simp only [priceChangedCheck, Bool.or_eq_true, decide_eq_true_eq] at hpc
      exact hpc
    · intro hdiff
      have hpc : priceChangedCheck ex p = true := by
        simp only [priceChangedCheck, Bool.or_eq_true, decide_eq_true_eq]
        tauto
      refine List.mem_filter.mpr ⟨hmem, ?_⟩
      show (match DocStore.lookup (syncIndexOf store sid) p.id with
        | some exq => hasChanged exq p && priceChangedCheck exq p
        | none => false) = true
      rw [hmidx]
      show (hasChanged ex p && priceChangedCheck ex p) = true
      rw [Bool.and_eq_true]
      exact ⟨priceChanged_imp_hasChanged ex p hpc, hpc⟩

/-- Snapshot product 1-a at the dropped price 8 (Scenario B shape). -/
def prodA8 : IkeaProduct := { prodA with price := ⟨8, none, "EUR", none⟩ }

/-- Witness for C2: persisted 1-a@10 against snapshot 1-a@8 is re-written as
updated, and joins the price-changed set. -/
theorem syncProducts_updated_iff_witness :
    DocStore.lookup (syncProducts [("1-a", docA)] "1" [prodA8] 5).2 "1-a"
      = some (mkUpdatedDoc docA prodA8 5)
    ∧ prodA8 ∈ (syncProducts [("1-a", docA)] "1" [prodA8] 5).1.priceChangedProducts :=
  ⟨(syncProducts_updated_iff [("1-a", docA)] "1" [prodA8] 5 prodA8 docA
      ⟨by decide, by decide⟩ (by decide) (by decide) (by decide) (by decide)).1
      (by unfold specFieldsDiffer; decide),
   ((syncProducts_updated_iff [("1-a", docA)] "1" [prodA8] 5 prodA8 docA
      ⟨by decide, by decide⟩ (by decide) (by decide) (by decide) (by decide)).2.2).mpr
      (by decide)⟩

theorem hasChanged_mkNewDoc (p : IkeaProduct) (now : Nat) :
    hasChanged (mkNewDoc p now) p = false := by
  simp [hasChanged, mkNewDoc]

theorem hasChanged_mkUpdatedDoc (ex : IkeaProductDocument) (p : IkeaProduct)
    (now : Nat) : hasChanged (mkUpdatedDoc ex p now) p = false := by
  simp [hasChanged, mkUpdatedDoc, mkNewDoc]

/-- C3: diffing is idempotent: running `syncProducts` for snapshot S against the
state produced by a previous `syncProducts` run for the same snapshot yields an
empty change-set — zero added, zero updated, zero removed. -/
theorem syncProducts_idempotent (store : DocStore IkeaProductDocument)
    (sid : String) (ps : List IkeaProduct) (now now2 : Nat)
    (hWF : DocStore.WF store (·.id)) (hsid : ∀ p ∈ ps, p.storeId = sid)
    (hnodup : (ps.map (·.id)).Nodup) :
    (syncProducts (syncProducts store sid ps now).2 sid ps now2).1
      = ⟨0, 0, 0, [], [], []⟩ := by
  have hWF2 := syncProducts_WF store sid ps now hWF
  have hlook : ∀ p ∈ ps, ∃ d,
      DocStore.lookup (syncProducts store sid ps now).2 p.id = some d
      ∧ d.storeId = sid ∧ hasChanged d p = false := by
    intro p hp
    have hfind := find?_id_of_mem ps p hp hnodup
    have h := syncProducts_lookup store sid ps now p.id hWF hnodup
    rw [hfind] at h
    have h2 : DocStore.lookup (syncProducts store sid ps now).2 p.id
        = (match DocStore.lookup store p.id with
          | some ex =>
            if ex.storeId = sid then
              (if hasChanged ex p = true then some (mkUpdatedDoc ex p now)
                else some ex)
            else some (mkNewDoc p now)
          | none => some (mkNewDoc p now)) := h
    cases hls : DocStore.lookup store p.id with
    | none =>
      rw [hls] at h2
      exact ⟨mkNewDoc p now, h2, hsid p hp, hasChanged_mkNewDoc p now⟩
    | some ex =>
      rw [hls] at h2
      have h3 : DocStore.lookup (syncProducts store sid ps now).2 p.id
          = (if ex.storeId = sid then
              (if hasChanged ex p = true then some (mkUpdatedDoc ex p now)
                else some ex)
            else some (mkNewDoc p now)) := h2
      by_cases hsc : ex.storeId = sid
      · by_cases hch : hasChanged ex p = true
        · rw [if_pos hsc, if_pos hch] at h3
          exact ⟨mkUpdatedDoc ex p now, h3, hsid p hp,
            hasChanged_mkUpdatedDoc ex p now⟩
        · rw [if_pos hsc, if_neg hch] at h3
          exact ⟨ex, h3, hsc, Bool.of_not_eq_true hch⟩
      · rw [if_neg hsc] at h3
        exact ⟨mkNewDoc p now, h3, hsid p hp, hasChanged_mkNewDoc p now⟩
  have hm2 : ∀ p ∈ ps, ∃ d,
      DocStore.lookup (syncIndexOf (syncProducts store sid ps now).2 sid) p.id
        = some d ∧ hasChanged d p = false := by
    intro p hp
    rcases hlook p hp with ⟨d, hd, hdsid, hdch⟩
    refine ⟨d, ?_, hdch⟩
    rw [syncProducts_index_lookup _ sid p.id hWF2, hd, Option.some_bind,
      if_pos hdsid]
  have hadded : addedOf
      (syncIndexOf (syncProducts store sid ps now).2 sid) ps = [] := by
    rw [addedOf, List.filter_eq_nil_iff]
    intro p hp
    rcases hm2 p hp with ⟨d, hd, _⟩
    show ¬ ((DocStore.lookup
      (syncIndexOf (syncProducts store sid ps now).2 sid) p.id).isNone = true)
    rw [hd]
    simp
  have hupdated : updatedOf
      (syncIndexOf (syncProducts store sid ps now).2 sid) ps = [] := by
    rw [updatedOf, List.filter_eq_nil_iff]
    intro p hp
    rcases hm2 p hp with ⟨d, hd, hdch⟩
    show ¬ ((match DocStore.lookup
        (syncIndexOf (syncProducts store sid ps now).2 sid) p.id with
      | some exq => hasChanged exq p
      | none => false) = true)
    rw [hd]
    show ¬ (hasChanged d p = true)
    rw [hdch]
    simp
  have hprice : priceChangedOf
      (syncIndexOf (syncProducts store sid ps now).2 sid) ps = [] := by
    rw [priceChangedOf, List.filter_eq_nil_iff]
    intro p hp
    rcases hm2 p hp with ⟨d, hd, hdch⟩
    show ¬ ((match DocStore.lookup
        (syncIndexOf (syncProducts store sid ps now).2 sid) p.id with
      | some exq => hasChanged exq p && priceChangedCheck exq p
      | none => false) = true)
    rw [hd]
    show ¬ ((hasChanged d p && priceChangedCheck d p) = true)
    rw [hdch]
    simp
  have hremoved : removedEntriesOf
      (syncIndexOf (syncProducts store sid ps now).2 sid) ps = [] := by
    rw [removedEntriesOf, List.filter_eq_nil_iff]
    intro kv hkv
    rw [syncIndexOf_eq _ sid hWF2] at hkv
    rcases List.mem_map.mp hkv with ⟨d, hdq, hdkv⟩
    have hdv : d ∈ DocStore.values (syncProducts store sid ps now).2 :=
      List.mem_of_mem_filter hdq
    have hdsid : d.storeId = sid := by
      have := (List.mem_filter.mp hdq).2
      exact of_decide_eq_true this
    have hS2d : DocStore.lookup (syncProducts store sid ps now).2 d.id = some d :=
      DocStore.lookup_of_mem_values _ (·.id) hWF2 d hdv
    have hidmem : d.id ∈ ps.map (·.id) := by
      by_contra hno
      have hfnone : ps.find? (fun q => decide (q.id = d.id)) = none := by
        apply List.find?_eq_none.mpr
        intro q hq
        intro hdec
        exact hno (of_decide_eq_true hdec ▸ List.mem_map_of_mem (·.id) hq)
      have h := syncProducts_lookup store sid ps now d.id hWF hnodup
      rw [hfnone] at h
      have h3 : DocStore.lookup (syncProducts store sid ps now).2 d.id
          = (match DocStore.lookup store d.id with
            | some ex => if ex.storeId = sid then none else some ex
            | none => none) := h
      rw [hS2d] at h3
      cases hlss : DocStore.lookup store d.id with
      | none =>
        rw [hlss] at h3
        have h4 : (some d : Option IkeaProductDocument) = none := h3
        cases h4
      | some ex =>
        rw [hlss] at h3
        have h4 : (some d : Option IkeaProductDocument)
            = if ex.storeId = sid then none else some ex := h3
        by_cases hexs : ex.storeId = sid
        · rw [if_pos hexs] at h4
          cases h4
        · rw [if_neg hexs] at h4
          have hde : d = ex := Option.some.inj h4
          rw [← hde] at hexs
          exact hexs hdsid
    show ¬ ((!decide (kv.1 ∈ ps.map (·.id))) = true)
    have hkv1 : kv.1 = d.id := by rw [← hdkv]
    rw [hkv1, decide_eq_true hidmem]
    simp
  rw [syncProducts_out, hadded, hupdated, hprice, hremoved]
  simp

/-- Witness for C3: re-running the Scenario A diff against the state the first
run produced yields the empty change-set. -/
theorem syncProducts_idempotent_witness :
    (syncProducts (syncProducts scenarioAStore "1" scenarioASnapshot 5).2 "1"
      scenarioASnapshot 6).1 = ⟨0, 0, 0, [], [], []⟩ :=
  syncProducts_idempotent scenarioAStore "1" scenarioASnapshot 5 6
    ⟨by decide, by decide⟩ (by decide) (by decide)

/-- Iterated diff/apply cycles: fold `syncProducts` over a list of
(snapshot, sync-time) runs for one store. -/
def syncRuns (sid : String) : DocStore IkeaProductDocument →
    List (List IkeaProduct × Nat) → DocStore IkeaProductDocument
  | store, [] => store
  | store, r :: rest => syncRuns sid ((syncProducts store sid r.1 r.2).2) rest

/-- C4: firstSeen is assigned exactly once, when the product is first added — the
new document carries the sync time as firstSeen — and is never overwritten by any
later run: across arbitrarily many diff/apply cycles in which the id keeps
appearing in the snapshot, the persisted firstSeen never changes. -/
theorem syncProducts_firstSeen_invariant (sid : String) :
    (∀ store ps now p, DocStore.WF store (·.id) → ((ps.map (·.id)).Nodup) →
      p ∈ ps → DocStore.lookup store p.id = none →
      DocStore.lookup (syncProducts store sid ps now).2 p.id
        = some (mkNewDoc p now) ∧ (mkNewDoc p now).firstSeen = now) ∧
    (∀ runs store k ex d, DocStore.WF store (·.id) →
      (∀ r ∈ runs, (∀ p ∈ r.1, p.storeId = sid) ∧ ((r.1.map (·.id)).Nodup)
        ∧ k ∈ r.1.map (·.id)) →
      DocStore.lookup store k = some ex → ex.storeId = sid →
      DocStore.lookup (syncRuns sid store runs) k = some d →
      d.firstSeen = ex.firstSeen) := by
  constructor
  · intro store ps now p hWF hnodup hp hnone
    have hfind := find?_id_of_mem ps p hp hnodup
    have h := syncProducts_lookup store sid ps now p.id hWF hnodup
    rw [hfind] at h
    have h2 : DocStore.lookup (syncProducts store sid ps now).2 p.id
        = (match DocStore.lookup store p.id with
          | some ex =>
            if ex.storeId = sid then
              (if hasChanged ex p = true then some (mkUpdatedDoc ex p now)
                else some ex)
            else some (mkNewDoc p now)
          | none => some (mkNewDoc p now)) := h
    rw [hnone] at h2
    exact ⟨h2, rfl⟩
  · intro runs
    induction runs with
    | nil =>
      intro store k ex d hWF hr hex hexsid hd
      have hd2 : DocStore.lookup store k = some d := hd
      have heq : (some ex : Option IkeaProductDocument) = some d :=
        hex.symm.trans hd2
      rw [← Option.some.inj heq]
    | cons r rest ih =>
      intro store k ex d hWF hr hex hexsid hd
      obtain ⟨hstoreids, hnodupr, hkmem⟩ := hr r (List.mem_cons_self r rest)
      have hrrest : ∀ r2 ∈ rest, (∀ p ∈ r2.1, p.storeId = sid)
          ∧ ((r2.1.map (·.id)).Nodup) ∧ k ∈ r2.1.map (·.id) :=
        fun r2 h2 => hr r2 (List.mem_cons_of_mem r h2)
      rcases List.mem_map.mp hkmem with ⟨p, hpmem, hpid⟩
      have hfind : r.1.find? (fun q => decide (q.id = k)) = some p := by
        rw [← hpid]
        exact find?_id_of_mem r.1 p hpmem hnodupr
      have hWF2 := syncProducts_WF store sid r.1 r.2 hWF
      have h := syncProducts_lookup store sid r.1 r.2 k hWF hnodupr
      rw [hfind] at h
      have h2 : DocStore.lookup (syncProducts store sid r.1 r.2).2 k
          = (match DocStore.lookup store k with
            | some ex2 =>
              if ex2.storeId = sid then
                (if hasChanged ex2 p = true then some (mkUpdatedDoc ex2 p r.2)
                  else some ex2)
              else some (mkNewDoc p r.2)
            | none => some (mkNewDoc p r.2)) := h
      rw [hex] at h2
      have h3 : DocStore.lookup (syncProducts store sid r.1 r.2).2 k
          = (if ex.storeId = sid then
              (if hasChanged ex p = true then some (mkUpdatedDoc ex p r.2)
                else some ex)
            else some (mkNewDoc p r.2)) := h2
      rw [if_pos hexsid] at h3
      by_cases hch : hasChanged ex p = true
      · rw [if_pos hch] at h3
        have hsid2 : (mkUpdatedDoc ex p r.2).storeId = sid := hstoreids p hpmem
        have hfs := ih ((syncProducts store sid r.1 r.2).2) k
          (mkUpdatedDoc ex p r.2) d hWF2 hrrest h3 hsid2 hd
        rw [hfs]
        rfl
      · rw [if_neg hch] at h3
        exact ih ((syncProducts store sid r.1 r.2).2) k ex d hWF2 hrrest h3
          hexsid hd

/-- Witness for C4: in Scenario A the new product 1-c gets firstSeen = 5, and a
price-changed re-observation of 1-a keeps the persisted firstSeen of `docA`. -/
theorem syncProducts_firstSeen_invariant_witness :
    DocStore.lookup (syncProducts scenarioAStore "1" scenarioASnapshot 5).2 "1-c"
      = some (mkNewDoc prodC 5)
    ∧ (mkUpdatedDoc docA prodA8 7).firstSeen = docA.firstSeen := by
  refine ⟨((syncProducts_firstSeen_invariant "1").1 scenarioAStore
    scenarioASnapshot 5 prodC ⟨by decide, by decide⟩ (by decide) (by decide)
    (by decide)).1, ?_⟩
  exact (syncProducts_firstSeen_invariant "1").2 [([prodA8], 7)] [("1-a", docA)]
    "1-a" docA (mkUpdatedDoc docA prodA8 7) ⟨by decide, by decide⟩ (by decide)
    (by decide) (by decide) (by decide)

/-- C5 counterexample: with the persisted record 1-a (lastSeen 0) re-observed
unchanged at sync time 5, `syncProducts` does not re-write the record: lastSeen
stays 0 instead of being refreshed to 5, contrary to the claim that lastSeen is
updated on every observation. -/
theorem syncProducts_lastSeen_cex :
    (DocStore.lookup (syncProducts [("1-a", docA)] "1" [prodA] 5).2 "1-a").map
        (·.lastSeen) = some 0
    ∧ (DocStore.lookup (syncProducts [("1-a", docA)] "1" [prodA] 5).2 "1-a").map
        (·.lastSeen) ≠ some 5 := by
  decide

/-- C5 amended: for a product present in both the persisted state and the
snapshot, lastSeen is refreshed to the sync time only when some compared field
differs (the product is classified updated); an unchanged re-observation leaves
the persisted record — lastSeen included — untouched. -/
theorem syncProducts_lastSeen_amended (store : DocStore IkeaProductDocument)
    (sid : String) (ps : List IkeaProduct) (now : Nat) (p : IkeaProduct)
    (ex : IkeaProductDocument) (hWF : DocStore.WF store (·.id))
    (hnodup : (ps.map (·.id)).Nodup) (hmem : p ∈ ps)
    (hex : DocStore.lookup store p.id = some ex) (hsid : ex.storeId = sid) :
    (hasChanged ex p = true →
      (DocStore.lookup (syncProducts store sid ps now).2 p.id).map (·.lastSeen)
        = some now)
    ∧ (hasChanged ex p = false →
      DocStore.lookup (syncProducts store sid ps now).2 p.id = some ex) := by
  have hfind := find?_id_of_mem ps p hmem hnodup
  have hlook : DocStore.lookup (syncProducts store sid ps now).2 p.id
      = if hasChanged ex p = true then some (mkUpdatedDoc ex p now) else some ex := by
    rw [syncProducts_lookup store sid ps now p.id hWF hnodup, hfind]
    show (match DocStore.lookup store p.id with
      | some ex2 =>
        if ex2.storeId = sid then
          (if hasChanged ex2 p = true then some (mkUpdatedDoc ex2 p now)
            else some ex2)
        else some (mkNewDoc p now)
      | none => some (mkNewDoc p now)) = _
    rw [hex]
    show (if ex.storeId = sid then
        (if hasChanged ex p = true then some (mkUpdatedDoc ex p now) else some ex)
      else some (mkNewDoc p now)) = _
    rw [if_pos hsid]
  constructor
  · intro hch
    rw [hlook, if_pos hch]
    rfl
  · intro hch
    have hnot : ¬ hasChanged ex p = true := by
      rw [hch]
      exact Bool.false_ne_true
    rw [hlook, if_neg hnot]

/-- Witness for C5's amended statement: the unchanged re-observation of 1-a at
time 5 leaves the persisted document exactly as it was. -/
theorem syncProducts_lastSeen_amended_witness :
    DocStore.lookup (syncProducts [("1-a", docA)] "1" [prodA] 5).2 "1-a"
      = some docA :=
  (syncProducts_lastSeen_amended [("1-a", docA)] "1" [prodA] 5 prodA docA
    ⟨by decide, by decide⟩ (by decide) (by decide) (by decide) (by decide)).2
    (by decide)

/-! Bot users, preferences and the notification dispatcher
(`bot-user.service.ts`, `notification.service.ts`). -/

/-- `IkeaCircularityPreferences` from the shared bot-user types. -/
structure IkeaCircularityPreferences where
  subscribedStores : List String
  notifyOnNewProducts : Bool
  notifyOnRemovedProducts : Bool
  notifyOnPriceChanges : Bool
  maxPrice : Option ℚ
  minDiscount : Option ℚ
deriving DecidableEq, Repr

/-- `BotUserPreferencesDocument`. -/
structure BotUserPreferencesDocument where
  userId : String
  botType : String
  preferences : IkeaCircularityPreferences
  updatedAt : Nat
deriving DecidableEq, Repr

/-- `BotUserDocument`. -/
structure BotUserDocument where
  userId : String
  chatId : String
  username : Option String
  firstName : Option String
  lastName : Option String
  botType : String
  isActive : Bool
  createdAt : Nat
  updatedAt : Nat
deriving DecidableEq, Repr

/-- `usersAdapter.query('userId', '==', userId)`. -/
def queryUsersByUserId (users : DocStore BotUserDocument) (uid : String) :
    List BotUserDocument :=
  (DocStore.values users).filter (fun u => decide (u.userId = uid))

/-- Loop body of `BotUserService.getUsersSubscribedToStore` for one preference
record: when it is for this bot type and subscribes the store, look the user up
by userId and collect the chat id if the first match is active. -/
def subsChatIdStep (users : DocStore BotUserDocument) (storeId : String)
    (acc : List String) (pref : BotUserPreferencesDocument) : List String :=
  if pref.botType = "ikea-circularity"
      ∧ storeId ∈ pref.preferences.subscribedStores then
    match queryUsersByUserId users pref.userId with
    | [] => acc
    | u :: _ => if u.isActive then acc ++ [u.chatId] else acc
  else acc

/-- `BotUserService.getUsersSubscribedToStore`. -/
def getUsersSubscribedToStore (users : DocStore BotUserDocument)
    (prefsAll : List BotUserPreferencesDocument) (storeId : String) :
    List String :=
  prefsAll.foldl (subsChatIdStep users storeId) []

/-- Result shape of the subscription lookup used by the dispatcher: a chat id
together with the preference flags. -/
structure SubscribedUser where
  chatId : String
  preferences : IkeaCircularityPreferences
deriving DecidableEq, Repr

/-- Loop body of the subscription-with-preferences lookup for one preference
record. -/
def subsWithPrefsStep (users : DocStore BotUserDocument) (storeId : String)
    (acc : List SubscribedUser) (pref : BotUserPreferencesDocument) :
    List SubscribedUser :=
  if pref.botType = "ikea-circularity"
      ∧ storeId ∈ pref.preferences.subscribedStores then
    match queryUsersByUserId users pref.userId with
    | [] => acc
    | u :: _ =>
      if u.isActive then acc ++ [⟨u.chatId, pref.preferences⟩] else acc
  else acc

/-- Modelled from the spec: `BotUserService.getUsersSubscribedToStoreWithPreferences`
is called by `NotificationService.notifyPriceChanges` but its definition is not
among the sources (only callers are). Per the spec's subscription-store contract
(`getSubscriptionsForStore(storeId) -> Subscription[]`, selection on
`subscribedStoreIds` containing the store) and the sibling in-source
`getUsersSubscribedToStore`, it returns, for each preference record of this bot
type whose subscribed stores contain the store id and whose first matching user
record is active, that user's chat id paired with the preference flags. -/
def getUsersSubscribedToStoreWithPreferences (users : DocStore BotUserDocument)
    (prefsAll : List BotUserPreferencesDocument) (storeId : String) :
    List SubscribedUser :=
  prefsAll.foldl (subsWithPrefsStep users storeId) []

/-- Environment tag of `NotificationServiceConfig`. -/
inductive Environment where
  | development
  | production
deriving DecidableEq, Repr

/-- `NotificationServiceConfig` (the Telegram token is abstracted to whether a
bot is configured). -/
structure NotificationConfig where
  enabled : Bool
  environment : Environment
  hasBot : Bool
deriving DecidableEq, Repr

/-- One send of a price-change message planned by the dispatcher: recipient chat
id and product id. -/
structure PriceChangeSend where
  chatId : String
  productId : String
deriving DecidableEq, Repr

/-- The sends performed by `NotificationService.notifyPriceChanges`: none when
disabled, the product list is empty, nobody subscribed wants price
notifications, or in development (preview logging only); otherwise one send per
product per user wanting price notifications, in loop order. -/
def notifyPriceChangesSends (cfg : NotificationConfig)
    (users : DocStore BotUserDocument)
    (prefsAll : List BotUserPreferencesDocument) (storeId : String)
    (products : List IkeaProduct) : List PriceChangeSend :=
  if ¬ cfg.enabled ∨ products.isEmpty then []
  else
    let subscribedUsers :=
      getUsersSubscribedToStoreWithPreferences users prefsAll storeId
    let usersWantingNotifications :=
      subscribedUsers.filter (fun u => u.preferences.notifyOnPriceChanges)
    if usersWantingNotifications.isEmpty then []
    else if cfg.environment = Environment.development then []
    else
      products.foldl (fun acc product =>
        acc ++ usersWantingNotifications.map
          (fun u => ⟨u.chatId, product.id⟩)) []

theorem mem_foldl_append {β γ : Type} (f : β → List γ) (l : List β) :
    ∀ (acc : List γ) (x : γ),
    x ∈ l.foldl (fun acc b => acc ++ f b) acc → x ∈ acc ∨ ∃ b ∈ l, x ∈ f b := by
  induction l with
  | nil => intro acc x h; exact Or.inl h
  | cons b l ih =>
    intro acc x h
    rcases ih (acc ++ f b) x h with h2 | h2
    · rcases List.mem_append.mp h2 with h3 | h3
      · exact Or.inl h3
      · exact Or.inr ⟨b, List.mem_cons_self b l, h3⟩
    · rcases h2 with ⟨b2, hb2, hx⟩
      exact Or.inr ⟨b2, List.mem_cons_of_mem b hb2, hx⟩

theorem mem_subsWithPrefs (users : DocStore BotUserDocument) (storeId : String)
    (prefsAll : List BotUserPreferencesDocument) : ∀ acc u,
    u ∈ prefsAll.foldl (subsWithPrefsStep users storeId) acc →
    u ∈ acc ∨ ∃ pref ∈ prefsAll, pref.botType = "ikea-circularity"
      ∧ storeId ∈ pref.preferences.subscribedStores
      ∧ ∃ bu rest, queryUsersByUserId users pref.userId = bu :: rest
        ∧ bu.isActive = true ∧ u = ⟨bu.chatId, pref.preferences⟩ := by
  induction prefsAll with
  | nil => intro acc u h; exact Or.inl h
  | cons pref prefsAll ih =>
    intro acc u h
    rw [List.foldl_cons] at h
    rcases ih (subsWithPrefsStep users storeId acc pref) u h with h2 | h2
    · unfold subsWithPrefsStep at h2
      by_cases hc : pref.botType = "ikea-circularity"
          ∧ storeId ∈ pref.preferences.subscribedStores
      · rw [if_pos hc] at h2
        cases hq : queryUsersByUserId users pref.userId with
        | nil =>
          rw [hq] at h2
          exact Or.inl h2
        | cons bu rest =>
          rw [hq] at h2
          have h4 : u ∈ (if bu.isActive = true
              then acc ++ [⟨bu.chatId, pref.preferences⟩] else acc) := h2
          by_cases hact : bu.isActive = true
          · rw [if_pos hact] at h4
            rcases List.mem_append.mp h4 with h3 | h3
            · exact Or.inl h3
            · rw [List.mem_singleton] at h3
              exact Or.inr ⟨pref, List.mem_cons_self pref prefsAll, hc.1, hc.2,
                bu, rest, hq, hact, h3⟩
          · rw [if_neg hact] at h4
            exact Or.inl h4
      · rw [if_neg hc] at h2
        exact Or.inl h2
    · rcases h2 with ⟨pref2, hmem2, hrest⟩
      exact Or.inr ⟨pref2, List.mem_cons_of_mem pref hmem2, hrest⟩

theorem mem_subsChatIds (users : DocStore BotUserDocument) (storeId : String)
    (prefsAll : List BotUserPreferencesDocument) : ∀ acc c,
    c ∈ prefsAll.foldl (subsChatIdStep users storeId) acc →
    c ∈ acc ∨ ∃ pref ∈ prefsAll, pref.botType = "ikea-circularity"
      ∧ storeId ∈ pref.preferences.subscribedStores
      ∧ ∃ bu rest, queryUsersByUserId users pref.userId = bu :: rest
        ∧ bu.isActive = true ∧ c = bu.chatId := by
  induction prefsAll with
  | nil => intro acc c h; exact Or.inl h
  | cons pref prefsAll ih =>
    intro acc c h
    rw [List.foldl_cons] at h
    rcases ih (subsChatIdStep users storeId acc pref) c h with h2 | h2
    · unfold subsChatIdStep at h2
      by_cases hc : pref.botType = "ikea-circularity"
          ∧ storeId ∈ pref.preferences.subscribedStores
      · rw [if_pos hc] at h2
        cases hq : queryUsersByUserId users pref.userId with
        | nil =>
          rw [hq] at h2
          exact Or.inl h2
        | cons bu rest =>
          rw [hq] at h2
          have h4 : c ∈ (if bu.isActive = true
              then acc ++ [bu.chatId] else acc) := h2
          by_cases hact : bu.isActive = true
          · rw [if_pos hact] at h4
            rcases List.mem_append.mp h4 with h3 | h3
            · exact Or.inl h3
            · rw [List.mem_singleton] at h3
              exact Or.inr ⟨pref, List.mem_cons_self pref prefsAll, hc.1, hc.2,
                bu, rest, hq, hact, h3⟩
          · rw [if_neg hact] at h4
            exact Or.inl h4
      · rw [if_neg hc] at h2
        exact Or.inl h2
    · rcases h2 with ⟨pref2, hmem2, hrest⟩
      exact Or.inr ⟨pref2, List.mem_cons_of_mem pref hmem2, hrest⟩

/-- C6: the dispatcher's preference filter: every price-change send goes to a
recipient subscribed to the given store whose preference record has
notifyOnPriceChanges = true; a recipient all of whose subscription entries for
the store have notifyOnPriceChanges = false never receives a price-changed
notification, regardless of the other flags. -/
theorem notifyPriceChanges_preference_filter (cfg : NotificationConfig)
    (users : DocStore BotUserDocument)
    (prefsAll : List BotUserPreferencesDocument) (storeId : String)
    (products : List IkeaProduct) :
    (∀ s ∈ notifyPriceChangesSends cfg users prefsAll storeId products,
      ∃ u ∈ getUsersSubscribedToStoreWithPreferences users prefsAll storeId,
        u.chatId = s.chatId ∧ u.preferences.notifyOnPriceChanges = true
        ∧ storeId ∈ u.preferences.subscribedStores) ∧
    (∀ c, (∀ u ∈ getUsersSubscribedToStoreWithPreferences users prefsAll storeId,
        u.chatId = c → u.preferences.notifyOnPriceChanges = false) →
      ∀ s ∈ notifyPriceChangesSends cfg users prefsAll storeId products,
        s.chatId ≠ c) := by
  have hpart1 : ∀ s ∈ notifyPriceChangesSends cfg users prefsAll storeId products,
      ∃ u ∈ getUsersSubscribedToStoreWithPreferences users prefsAll storeId,
        u.chatId = s.chatId ∧ u.preferences.notifyOnPriceChanges = true
        ∧ storeId ∈ u.preferences.subscribedStores := by
    intro s hs
    unfold notifyPriceChangesSends at hs
    by_cases h1 : ¬ cfg.enabled = true ∨ products.isEmpty = true
    · rw [if_pos h1] at hs
      cases hs
    · rw [if_neg h1] at hs
      have hs2 : s ∈ (if ((getUsersSubscribedToStoreWithPreferences users prefsAll
            storeId).filter (fun u => u.preferences.notifyOnPriceChanges)).isEmpty
              = true
          then ([] : List PriceChangeSend)
          else if cfg.environment = Environment.development then []
          else products.foldl (fun acc product =>
            acc ++ ((getUsersSubscribedToStoreWithPreferences users prefsAll
              storeId).filter (fun u => u.preferences.notifyOnPriceChanges)).map
              (fun u => (⟨u.chatId, product.id⟩ : PriceChangeSend))) []) := hs
      by_cases h2 : ((getUsersSubscribedToStoreWithPreferences users prefsAll
          storeId).filter (fun u => u.preferences.notifyOnPriceChanges)).isEmpty
            = true
      · rw [if_pos h2] at hs2
        cases hs2
      · rw [if_neg h2] at hs2
        by_cases h3 : cfg.environment = Environment.development
        · rw [if_pos h3] at hs2
          cases hs2
        · rw [if_neg h3] at hs2
          rcases mem_foldl_append (fun product =>
              ((getUsersSubscribedToStoreWithPreferences users prefsAll
                storeId).filter (fun u => u.preferences.notifyOnPriceChanges)).map
                (fun u => (⟨u.chatId, product.id⟩ : PriceChangeSend)))
              products [] s hs2 with h4 | h4
          · cases h4
          · rcases h4 with ⟨product, hpmem, hsmem⟩
            rcases List.mem_map.mp hsmem with ⟨u, humem, hueq⟩
            have humem2 := List.mem_filter.mp humem
            rcases mem_subsWithPrefs users storeId prefsAll [] u humem2.1
              with h5 | h5
            · cases h5
            · rcases h5 with ⟨pref, _, _, hsub, bu, rest2, _, _, hueq2⟩
              refine ⟨u, humem2.1, ?_, humem2.2, ?_⟩
              · rw [← hueq]
              · rw [hueq2]
                exact hsub
  refine ⟨hpart1, ?_⟩
  intro c hc s hs hcontra
  rcases hpart1 s hs with ⟨u, humem, huchat, huflag, _⟩
  have hfalse := hc u humem (huchat.trans hcontra)
  rw [hfalse] at huflag
  cases huflag

/-- An active bot user registered under chat id 7. -/
def user7 : BotUserDocument :=
  ⟨"7", "7", none, none, none, "ikea-circularity", true, 0, 0⟩

/-- A preference record for user 7 subscribing store 1 with all notifications
on. -/
def prefs7 : BotUserPreferencesDocument :=
  ⟨"7", "ikea-circularity", ⟨["1"], true, true, true, none, none⟩, 0⟩

/-- Witness for C6: the price-change send to chat 7 for product 1-a goes to a
subscription of store 1 with notifyOnPriceChanges = true. -/
theorem notifyPriceChanges_preference_filter_witness :
    ∃ u ∈ getUsersSubscribedToStoreWithPreferences [("7", user7)] [prefs7] "1",
      u.chatId = (⟨"7", "1-a"⟩ : PriceChangeSend).chatId
      ∧ u.preferences.notifyOnPriceChanges = true
      ∧ "1" ∈ u.preferences.subscribedStores :=
  (notifyPriceChanges_preference_filter ⟨true, Environment.production, true⟩
    [("7", user7)] [prefs7] "1" [prodA8]).1 ⟨"7", "1-a"⟩ (by decide)

/-- C10: recipient selection excludes deactivated users: every chat id returned
by getUsersSubscribedToStore belongs to an active persisted user record reached
through a preference record of this bot type that subscribes the store; hence a
chat id all of whose user records are inactive is never returned, so a
deactivated recipient is excluded from every subsequent fan-out until
reactivated. -/
theorem getUsersSubscribedToStore_active_only (users : DocStore BotUserDocument)
    (prefsAll : List BotUserPreferencesDocument) (storeId : String) :
    (∀ c ∈ getUsersSubscribedToStore users prefsAll storeId,
      ∃ bu, bu ∈ DocStore.values users ∧ bu.chatId = c ∧ bu.isActive = true
        ∧ ∃ pref ∈ prefsAll, pref.botType = "ikea-circularity"
          ∧ storeId ∈ pref.preferences.subscribedStores
          ∧ ∃ rest, queryUsersByUserId users pref.userId = bu :: rest) ∧
    (∀ c, (∀ bu ∈ DocStore.values users, bu.chatId = c → bu.isActive = false) →
      c ∉ getUsersSubscribedToStore users prefsAll storeId) := by
  have hpart1 : ∀ c ∈ getUsersSubscribedToStore users prefsAll storeId,
      ∃ bu, bu ∈ DocStore.values users ∧ bu.chatId = c ∧ bu.isActive = true
        ∧ ∃ pref ∈ prefsAll, pref.botType = "ikea-circularity"
          ∧ storeId ∈ pref.preferences.subscribedStores
          ∧ ∃ rest, queryUsersByUserId users pref.userId = bu :: rest := by
    intro c hc
    rcases mem_subsChatIds users storeId prefsAll [] c hc with h | h
    · cases h
    · rcases h with ⟨pref, hpmem, hbt, hsub, bu, rest, hq, hact, hceq⟩
      have hbu : bu ∈ DocStore.values users := by
        have hmem0 : bu ∈ queryUsersByUserId users pref.userId := by
          rw [hq]
          exact List.mem_cons_self bu rest
        exact List.mem_of_mem_filter hmem0
      exact ⟨bu, hbu, hceq.symm, hact, pref, hpmem, hbt, hsub, rest, hq⟩
  refine ⟨hpart1, ?_⟩
  intro c hc hmem
  rcases hpart1 c hmem with ⟨bu, hbuv, hbc, hact, _⟩
  have hfalse := hc bu hbuv hbc
  rw [hfalse] at hact
  cases hact

/-- Witness for C10: once user 7 is deactivated, chat 7 is excluded from the
fan-out for store 1 even though the preferences still subscribe it. -/
theorem getUsersSubscribedToStore_active_only_witness :
    "7" ∉ getUsersSubscribedToStore
      [("7", { user7 with isActive := false })] [prefs7] "1" :=
  (getUsersSubscribedToStore_active_only
    [("7", { user7 with isActive := false })] [prefs7] "1").2 "7" (by decide)

/-- The `error.response` shape inspected by `sendTextMessage`. -/
structure TelegramError where
  errorCode : Option Nat
  description : String
deriving DecidableEq, Repr

/-- Outcome of one Telegram channel invocation. -/
inductive SendAttempt where
  | delivered
  | failed (e : TelegramError)
deriving DecidableEq, Repr

/-- `BotUserService.deactivateUser`: query users by the userId field; when a
record is found, save the first match with isActive = false and a refreshed
updatedAt under the given id; otherwise do nothing. -/
def deactivateUser (users : DocStore BotUserDocument) (userId : String)
    (now : Nat) : DocStore BotUserDocument :=
  match queryUsersByUserId users userId with
  | [] => users
  | u :: _ =>
    DocStore.save users { u with isActive := false, updatedAt := now } userId

/-- JavaScript `String.prototype.includes` for a non-empty needle: the haystack
splits into more than one part. -/
def strIncludes (s sub : String) : Bool :=
  decide ((s.splitOn sub).length > 1)

/-- `NotificationService.sendTextMessage`: without a configured bot, false; on
success true; on a 403 error (recipient blocked the bot) or a 400 error whose
description contains "chat not found", deactivate the user keyed by the chat id
and return false; any other error is logged and returns false. There is no loop:
the channel is invoked exactly once per call. -/
def sendTextMessage (hasBot : Bool) (attempt : SendAttempt)
    (users : DocStore BotUserDocument) (chatId : String) (now : Nat) :
    Bool × DocStore BotUserDocument :=
  if ¬ hasBot then (false, users)
  else
    match attempt with
    | SendAttempt.delivered => (true, users)
    | SendAttempt.failed e =>
      if e.errorCode = some 403 then (false, deactivateUser users chatId now)
      else if e.errorCode = some 400
          ∧ strIncludes e.description "chat not found" then
        (false, deactivateUser users chatId now)
      else (false, users)

/-- The dispatcher's send loop: one channel invocation per planned send,
sequentially, threading the user store; a failed send is not re-enqueued.
Returns the success count, the trace of sends actually attempted, and the final
user store. -/
def runSendLoop (cfg : NotificationConfig)
    (outcome : PriceChangeSend → SendAttempt) (now : Nat) :
    List PriceChangeSend → DocStore BotUserDocument →
    Nat × List PriceChangeSend × DocStore BotUserDocument
  | [], users => (0, [], users)
  | s :: rest, users =>
    let r := sendTextMessage cfg.hasBot (outcome s) users s.chatId now
    let rec2 := runSendLoop cfg outcome now rest r.2
    ((if r.1 then 1 else 0) + rec2.1, s :: rec2.2.1, rec2.2.2)

theorem runSendLoop_trace (cfg : NotificationConfig)
    (outcome : PriceChangeSend → SendAttempt) (now : Nat) :
    ∀ (sends : List PriceChangeSend) (users0 : DocStore BotUserDocument),
    (runSendLoop cfg outcome now sends users0).2.1 = sends := by
  intro sends
  induction sends with
  | nil => intro users0; rfl
  | cons s rest ih =>
    intro users0
    show s :: (runSendLoop cfg outcome now rest
      (sendTextMessage cfg.hasBot (outcome s) users0 s.chatId now).2).2.1
        = s :: rest
    rw [ih]

/-- C7: on a permanent delivery failure (error code 403) the dispatcher
deactivates the recipient — the first persisted user record found under the chat
id is saved with isActive = false — and reports false without retrying: the send
loop invokes the channel exactly once per planned send whatever the outcomes. -/
theorem sendTextMessage_permanent_failure
    (users : DocStore BotUserDocument) (chatId : String) (now : Nat)
    (e : TelegramError) (u : BotUserDocument) (rest : List BotUserDocument)
    (hcode : e.errorCode = some 403)
    (hq : queryUsersByUserId users chatId = u :: rest) :
    (sendTextMessage true (SendAttempt.failed e) users chatId now
      = (false, DocStore.save users
          { u with isActive := false, updatedAt := now } chatId)) ∧
    (DocStore.lookup
        (sendTextMessage true (SendAttempt.failed e) users chatId now).2 chatId
      = some { u with isActive := false, updatedAt := now }) ∧
    (∀ cfg outcome sends users0,
      (runSendLoop cfg outcome now sends users0).2.1 = sends) := by
  have hdeact : deactivateUser users chatId now
      = DocStore.save users { u with isActive := false, updatedAt := now }
          chatId := by
    unfold deactivateUser
    rw [hq]
  have hmain : sendTextMessage true (SendAttempt.failed e) users chatId now
      = (false, DocStore.save users
          { u with isActive := false, updatedAt := now } chatId) := by
    show (if e.errorCode = some 403
        then (false, deactivateUser users chatId now)
        else if e.errorCode = some 400
            ∧ strIncludes e.description "chat not found" = true then
          (false, deactivateUser users chatId now)
        else (false, users)) = _
    rw [if_pos hcode, hdeact]
  refine ⟨hmain, ?_, fun cfg outcome sends users0 =>
    runSendLoop_trace cfg outcome now sends users0⟩
  rw [hmain]
  show DocStore.lookup (DocStore.save users
    { u with isActive := false, updatedAt := now } chatId) chatId = _
  rw [DocStore.lookup_save, if_pos rfl]

/-- Witness for C7: a 403 failure sending to chat 7 leaves user 7's record
deactivated in the store. -/
theorem sendTextMessage_permanent_failure_witness :
    DocStore.lookup (sendTextMessage true
      (SendAttempt.failed ⟨some 403, "Forbidden: bot was blocked by the user"⟩)
      [("7", user7)] "7" 9).2 "7"
      = some { user7 with isActive := false, updatedAt := 9 } :=
  (sendTextMessage_permanent_failure [("7", user7)] "7" 9
    ⟨some 403, "Forbidden: bot was blocked by the user"⟩ user7 [] (by decide)
    (by decide)).2.1

/-! The per-store scrape loop (`ikea-scraper.ts`). -/

/-- `IkeaStore` from the shared types. -/
structure IkeaStore where
  id : String
  name : String
  city : Option String
  region : Option String
  country : String
deriving DecidableEq, Repr

/-- `IkeaCategory` from the shared types. -/
structure IkeaCategory where
  id : String
  name : String
  description : Option String
  imageUrl : Option String
  productCount : Option Nat
deriving DecidableEq, Repr

/-- The sync counters accumulated by `scrape`. -/
structure ScrapeSyncStats where
  totalAdded : Nat
  totalUpdated : Nat
  totalRemoved : Nat
deriving DecidableEq, Repr

/-- `IkeaScraperResult` accumulated by `scrape`. -/
structure IkeaScraperResult where
  stores : List (IkeaStore × List IkeaCategory × List IkeaProduct)
  totalProducts : Nat
  totalCategories : Nat
  syncStats : ScrapeSyncStats
deriving DecidableEq, Repr

/-- What one successful store iteration contributes: the fetched categories and
products plus that store's sync counters. -/
structure StoreScrapeData where
  categories : List IkeaCategory
  products : List IkeaProduct
  stats : SyncOutcome
deriving DecidableEq, Repr

/-- Body of the per-store loop of `IkeaCircularityScraper.scrape` for one store:
on success accumulate categories, products and counters; on a thrown exception
log and leave the results untouched ("Continue with next store even if one
fails"). The store's fetch and sync effects are abstracted as an oracle
returning either the store's data or the thrown error. -/
def scrapeStep (processStore : IkeaStore → Except String StoreScrapeData)
    (results : IkeaScraperResult) (store : IkeaStore) : IkeaScraperResult :=
  match processStore store with
  | Except.ok d =>
    { stores := results.stores ++ [(store, d.categories, d.products)]
      totalProducts := results.totalProducts + d.products.length
      totalCategories := results.totalCategories + d.categories.length
      syncStats := ⟨results.syncStats.totalAdded + d.stats.added,
        results.syncStats.totalUpdated + d.stats.updated,
        results.syncStats.totalRemoved + d.stats.removed⟩ }
  | Except.error _ => results

/-- `IkeaCircularityScraper.scrape`: fold the per-store loop over the configured
stores starting from empty results. -/
def scrape (processStore : IkeaStore → Except String StoreScrapeData)
    (stores : List IkeaStore) : IkeaScraperResult :=
  stores.foldl (scrapeStep processStore) ⟨[], 0, 0, ⟨0, 0, 0⟩⟩

theorem scrape_foldl_filter (f : IkeaStore → Except String StoreScrapeData) :
    ∀ (stores : List IkeaStore) (acc : IkeaScraperResult),
    stores.foldl (scrapeStep f) acc
      = (stores.filter (fun s => (f s).isOk)).foldl (scrapeStep f) acc := by
  intro stores
  induction stores with
  | nil => intro acc; rfl
  | cons s stores ih =>
    intro acc
    cases hps : f s with
    | ok d =>
      have hok : (f s).isOk = true := by rw [hps]; rfl
      rw [List.foldl_cons, List.filter_cons, hok, if_pos rfl, List.foldl_cons,
        ih]
    | error err =>
      have hok : (f s).isOk = false := by rw [hps]; rfl
      have hstep : scrapeStep f acc s = acc := by
        unfold scrapeStep
        rw [hps]
      rw [List.foldl_cons, List.filter_cons, hok, if_neg Bool.false_ne_true,
        hstep, ih]

theorem scrape_foldl_stores_mono (f : IkeaStore → Except String StoreScrapeData) :
    ∀ (stores : List IkeaStore) (acc : IkeaScraperResult)
      (x : IkeaStore × List IkeaCategory × List IkeaProduct),
    x ∈ acc.stores → x ∈ (stores.foldl (scrapeStep f) acc).stores := by
  intro stores
  induction stores with
  | nil => intro acc x h; exact h
  | cons s stores ih =>
    intro acc x h
    rw [List.foldl_cons]
    apply ih
    cases hps : f s with
    | ok d =>
      unfold scrapeStep
      rw [hps]
      exact List.mem_append_left _ h
    | error err =>
      unfold scrapeStep
      rw [hps]
      exact h

theorem scrape_foldl_stores_complete
    (f : IkeaStore → Except String StoreScrapeData) :
    ∀ (stores : List IkeaStore) (acc : IkeaScraperResult) (s : IkeaStore)
      (d : StoreScrapeData), s ∈ stores → f s = Except.ok d →
    (s, d.categories, d.products) ∈ (stores.foldl (scrapeStep f) acc).stores := by
  intro stores
  induction stores with
  | nil => intro acc s d h _; cases h
  | cons s0 stores ih =>
    intro acc s d hmem hok
    rw [List.foldl_cons]
    rcases List.mem_cons.mp hmem with h | h
    · subst h
      apply scrape_foldl_stores_mono
      unfold scrapeStep
      rw [hok]
      exact List.mem_append_right _ (List.mem_singleton.mpr rfl)
    · exact ih (scrapeStep f acc s0) s d h hok

/-- C8: per-store failure isolation in the scrape loop: a store whose processing
throws contributes nothing and does not stop the loop — the run result equals the
result over the succeeding stores only, removing one failing store from anywhere
in the list leaves the result unchanged, and every succeeding store's data
appears in the result no matter which other stores failed. -/
theorem scrape_isolates_store_failures
    (processStore : IkeaStore → Except String StoreScrapeData) :
    (∀ stores, scrape processStore stores
      = scrape processStore (stores.filter (fun s => (processStore s).isOk))) ∧
    (∀ pre s post, (processStore s).isOk = false →
      scrape processStore (pre ++ s :: post)
        = scrape processStore (pre ++ post)) ∧
    (∀ stores s d, s ∈ stores → processStore s = Except.ok d →
      (s, d.categories, d.products) ∈ (scrape processStore stores).stores) := by
  refine ⟨?_, ?_, ?_⟩
  · intro stores
    exact scrape_foldl_filter processStore stores _
  · intro pre s post hfail
    unfold scrape
    rw [List.foldl_append, List.foldl_append, List.foldl_cons]
    have hstep : scrapeStep processStore
        (pre.foldl (scrapeStep processStore) ⟨[], 0, 0, ⟨0, 0, 0⟩⟩) s
        = pre.foldl (scrapeStep processStore) ⟨[], 0, 0, ⟨0, 0, 0⟩⟩ := by
      cases hps : processStore s with
      | ok d =>
        rw [hps] at hfail
        exact Bool.noConfusion hfail
      | error err =>
        unfold scrapeStep
        rw [hps]
    rw [hstep]
  · intro stores s d hmem hok
    exact scrape_foldl_stores_complete processStore stores _ s d hmem hok

/-- Store used by the C8 witness whose processing succeeds. -/
def okStore : IkeaStore := ⟨"1", "IKEA Roma", none, none, "IT"⟩

/-- Store used by the C8 witness whose processing throws. -/
def badStore : IkeaStore := ⟨"2", "IKEA Milano", none, none, "IT"⟩

/-- Oracle for the C8 witness: store 2 throws, every other store yields one
product. -/
def cexProcess : IkeaStore → Except String StoreScrapeData := fun s =>
  if s.id = "2" then Except.error "network error"
  else Except.ok ⟨[], [prodC], ⟨1, 0, 0, [prodC], [], []⟩⟩

/-- Witness for C8: the failing middle store neither aborts the run nor changes
the result — the run over [ok, bad, ok] equals the run over [ok, ok]. -/
theorem scrape_isolates_store_failures_witness :
    scrape cexProcess [okStore, badStore, okStore]
      = scrape cexProcess [okStore, okStore] :=
  (scrape_isolates_store_failures cexProcess).2.1 [okStore] badStore [okStore]
    (by decide)

/-! The paginated fetcher (`ikea-scraper.ts` over `BrowserHttpClient`). -/

/-- `PAGE_SIZE` of `IkeaCircularityScraper`. -/
def PAGE_SIZE : Nat := 32

/-- One offer of a raw catalog search item, with the fields the normalizer
reads. -/
structure IkeaRawOffer where
  id : String
  offerUuid : String
  price : ℚ
  productConditionCode : Option String
  isInBox : Option Bool
  reasonDiscount : Option String
  additionalInfo : Option String
  description : Option String
deriving DecidableEq, Repr

/-- One media entry of a raw catalog search item. -/
structure IkeaRawMedia where
  url : String
deriving DecidableEq, Repr

/-- One raw catalog search item of the products search response. -/
structure IkeaRawSearchItem where
  title : Option String
  description : Option String
  articleNumbers : Option (List String)
  originalPrice : Option ℚ
  currency : String
  offers : Option (List IkeaRawOffer)
  media : Option (List IkeaRawMedia)
  heroImage : Option String
deriving DecidableEq, Repr

/-- JavaScript truthiness of an optional string: undefined and the empty string
are falsy. -/
def jsTruthyStr : Option String → Bool
  | none => false
  | some s => decide (s ≠ "")

/-- JavaScript `a || b` for an optional string with a string fallback. -/
def jsOrStr (a : Option String) (b : String) : String :=
  match a with
  | some s => if s = "" then b else s
  | none => b

/-- The validity filter of `fetchProductsPage`: skip items with a missing offer
list, an empty offer list, or a missing/empty title. -/
def validSearchItem (item : IkeaRawSearchItem) : Bool :=
  match item.offers with
  | none => false
  | some offers => !offers.isEmpty && jsTruthyStr item.title

/-- Discount of the normalizer: when both the original price and the offer price
are truthy (present and non-zero), `round((original - current)/original*100)`. -/
def computeDiscount (originalPrice : Option ℚ) (price : ℚ) : Option ℚ :=
  match originalPrice with
  | some o =>
    if o ≠ 0 ∧ price ≠ 0 then some ((round ((o - price) / o * 100) : ℤ) : ℚ)
    else none
  | none => none

/-- One product per offer, as built by `fetchProductsPage` (the store slug
feeding the url is precomputed by `generateStoreSlug`, whose regex and Unicode
normalization are outside this embedding and passed in). -/
def offerToProduct (store : IkeaStore) (storeSlug : String) (now : Nat)
    (item : IkeaRawSearchItem) (offer : IkeaRawOffer) : IkeaProduct where
  id := store.id ++ "-" ++ offer.offerUuid
  offerId := offer.offerUuid
  articleNumbers := item.articleNumbers.getD []
  name := item.title.getD ""
  description := some (jsOrStr item.description (jsOrStr offer.description ""))
  price := ⟨offer.price, item.originalPrice, item.currency,
    computeDiscount item.originalPrice offer.price⟩
  condition := offer.productConditionCode
  category := none
  categoryId := none
  images := match item.media with
    | some ms => ms.map (·.url)
    | none => if jsTruthyStr item.heroImage then [item.heroImage.getD ""] else []
  storeId := store.id
  storeName := some store.name
  availability := Availability.available
  url := some ("https://www.ikea.com/it/it/circular/second-hand/#/"
    ++ storeSlug ++ "/" ++ offer.id)
  isInBox := offer.isInBox
  reasonDiscount := some (jsOrStr offer.reasonDiscount "")
  additionalInfo := some (jsOrStr offer.additionalInfo "")
  lastSeen := now
  firstSeen := now

/-- HTTP response of one page request: parsed content (possibly missing) or an
error status. -/
inductive PageResponse where
  | ok (content : Option (List IkeaRawSearchItem))
  | status (code : Nat)
deriving DecidableEq, Repr

/-- Events observable at the HTTP client: a page request, and the single longer
randomized backoff wait (5-10 s) the response interceptor performs on HTTP
429. -/
inductive FetchEvent where
  | requested (page : Nat)
  | backoffWait429
deriving DecidableEq, Repr

/-- The response interceptor of `BrowserHttpClient`: on status 429 it logs
"Rate limited, waiting before retry...", waits, and then still rejects the
promise; every error response propagates to the caller. -/
def interceptorEvents : PageResponse → List FetchEvent
  | PageResponse.status 429 => [FetchEvent.backoffWait429]
  | _ => []

/-- `fetchProductsPage`: a missing body yields an empty page, any thrown error
is caught (logged) and yields an empty page; otherwise one product per offer of
each valid item. -/
def fetchProductsPage (store : IkeaStore) (storeSlug : String) (now : Nat) :
    PageResponse → List IkeaProduct
  | PageResponse.ok none => []
  | PageResponse.ok (some content) =>
    (content.filter validSearchItem).foldl (fun acc item =>
      acc ++ (item.offers.getD []).map (offerToProduct store storeSlug now item))
      []
  | PageResponse.status _ => []

/-- `fetchAllProducts`: request pages from 0, appending each page's products;
stop on an empty page or a short page (< PAGE_SIZE); an error surfaces from the
page fetch as an empty page and therefore also stops the loop. `fuel` bounds the
loop for termination; the event list records the page requests made and any 429
backoff waits, in order. -/
def fetchAllProducts (store : IkeaStore) (storeSlug : String) (now : Nat)
    (responses : Nat → PageResponse) :
    Nat → Nat → List IkeaProduct → List FetchEvent →
    List IkeaProduct × List FetchEvent
  | 0, _, acc, evs => (acc, evs)
  | Nat.succ fuel, page, acc, evs =>
    let resp := responses page
    let evs2 := evs ++ [FetchEvent.requested page] ++ interceptorEvents resp
    let products := fetchProductsPage store storeSlug now resp
    if products.isEmpty then (acc, evs2)
    else if products.length < PAGE_SIZE then (acc ++ products, evs2)
    else fetchAllProducts store storeSlug now responses fuel (page + 1)
      (acc ++ products) evs2

/-- Run of the paginated fetch for one store, starting at page 0. -/
def fetchAllProductsRun (store : IkeaStore) (storeSlug : String) (now : Nat)
    (responses : Nat → PageResponse) (fuel : Nat) :
    List IkeaProduct × List FetchEvent :=
  fetchAllProducts store storeSlug now responses fuel 0 [] []

/-- A one-offer valid raw item. -/
def cexRawItem : IkeaRawSearchItem :=
  ⟨some "Chair", none, none, none, "EUR",
    some [⟨"o1", "u1", 10, none, none, none, none, none⟩], none, none⟩

/-- A full page: exactly PAGE_SIZE one-offer items. -/
def cexFullPage : List IkeaRawSearchItem := List.replicate 32 cexRawItem

/-- Responses for the C9 failing input: page 0 full, page 1 rate-limited with
HTTP 429, page 2 full again. -/
def cexResponses : Nat → PageResponse := fun n =>
  if n = 0 then PageResponse.ok (some cexFullPage)
  else if n = 1 then PageResponse.status 429
  else PageResponse.ok (some cexFullPage)

/-- C9 (behavior of the code at the failing input): with page 0 full, page 1
answering HTTP 429 and page 2 full again, the fetcher performs the single
backoff wait, but the rejected 429 error is caught by the page fetch and
surfaces as an empty page, so pagination terminates: only pages 0 and 1 are
requested, page 2 never is, and the store's catalog holds only page 0's
products — the fetch does not continue past the rate-limited request, contrary
to the claim. -/
theorem fetchAllProducts_429_stops :
    (fetchAllProductsRun okStore "roma" 0 cexResponses 10).2
      = [FetchEvent.requested 0, FetchEvent.requested 1,
        FetchEvent.backoffWait429]
    ∧ FetchEvent.requested 2 ∉ (fetchAllProductsRun okStore "roma" 0
        cexResponses 10).2
    ∧ (fetchAllProductsRun okStore "roma" 0 cexResponses 10).1.length = 32 := by
  refine ⟨by decide, by decide, by decide⟩

end DataScout
